import Mathlib

/-!
# Verification of the xino EL2 micro-hypervisor core

This file shallowly embeds the parts of the xino source tree that the
specification talks about, and proves (or refutes) the specified
properties against that embedding.

Conventions used throughout:

* Machine integers (`uint64_t`, `uintptr_t`) are modelled as `Nat` with an
  explicit `% 2 ^ 64` at every operation where C wrap-around can occur
  (`add64`, `sub64`, `compl64`).
* Strongly-typed address wrappers are modelled by their underlying integer
  value; the tag does not influence any computation.
* Fallible C++ code returning `xino::error_t` is modelled with an explicit
  `error_nr` result; C++ `std::optional` becomes `Option`.
* Stateful code (the buddy allocator, the page-table engine) is modelled by
  explicit state passing; hardware side effects (descriptor stores, barriers,
  TLB invalidations) are recorded in an explicit event trace.
-/

namespace Xino

/-- `2 ^ 64`, the modulus of all 64-bit unsigned arithmetic in the source. -/
def U64 : Nat := 2 ^ 64

/-- 64-bit wrapping addition (C `uint64_t`/`uintptr_t` addition). -/
def add64 (x y : Nat) : Nat := (x + y) % U64

/-- 64-bit wrapping subtraction (C `uint64_t`/`uintptr_t` subtraction). -/
def sub64 (x y : Nat) : Nat := (x + (U64 - y % U64)) % U64

/-- 64-bit bitwise complement (`~x` on `uint64_t`, for `x < 2 ^ 64`). -/
def compl64 (x : Nat) : Nat := (U64 - 1) - x % U64

/-- Error kinds of `xino::error_nr` (errno.hpp). -/
inductive error_nr
  | ok
  | invalid
  | overflow
  | nomem
deriving DecidableEq, Repr

/-! ## Strongly-typed address wrappers

Two wrapper families exist in the source: `xino::address<Tag>` in
`addr_types.hpp` and the CRTP `xino::mm::address_base<Derived, Tag>` in
`mm.hpp`.  Only the underlying integer arithmetic matters here.
-/

namespace AddrTypes

/-- `xino::address<Tag>::operator+(address, uintptr_t)` (addr_types.hpp):
the body executes `a += off`. -/
def address_add_off (a off : Nat) : Nat := add64 a off

/-- `xino::address<Tag>::operator-(address, uintptr_t)` (addr_types.hpp,
lines 107-112): the comment in the source says "Return `a - off` (bytes)"
but the body executes `a += off`, i.e. it adds the offset. -/
def address_sub_off (a off : Nat) : Nat := add64 a off

end AddrTypes

namespace Mm

/-- `xino::mm::address_base::operator+(Derived, uintptr_t)` (mm.hpp):
the body executes `a += off`. -/
def address_base_add_off (a off : Nat) : Nat := add64 a off

/-- `xino::mm::address_base::operator-(Derived, uintptr_t)` (mm.hpp,
lines 131-136): the body executes `a -= off`. -/
def address_base_sub_off (a off : Nat) : Nat := sub64 a off

/-- `address_base::align_up` : `(addr + (align - 1)) & ~(align - 1)`.
For the power-of-two alignments required by the source precondition this
equals rounding up to the next multiple of `align` (with 64-bit wrap on the
intermediate addition). -/
def align_up (a align : Nat) : Nat :=
  let x := add64 a (align - 1)
  x - x % align

/-- `address_base::align_down` : `addr & ~(align - 1)`.  For power-of-two
`align` (source precondition) this equals `a - a % align`. -/
def align_down (a align : Nat) : Nat := a - a % align

/-- `address_base::is_align` : `(addr & (align - 1)) == 0`.  For
power-of-two `align` (source precondition) this is `a % align == 0`. -/
def is_align (a align : Nat) : Bool := a % align == 0

/-! ### Protection flags (`xino::mm::prot`, mm.hpp) -/

namespace Prot

def READ : Nat := 0x1
def WRITE : Nat := 0x2
def EXECUTE : Nat := 0x4
def KERNEL : Nat := 0x8
def DEVICE : Nat := 0x10
def SHARED : Nat := 0x20
def RW : Nat := READ ||| WRITE
def RWE : Nat := RW ||| EXECUTE
def ALL_BITS : Nat := RWE ||| KERNEL ||| DEVICE ||| SHARED
def KERNEL_RW : Nat := RW ||| KERNEL ||| SHARED
def KERNEL_RWX : Nat := RWE ||| KERNEL ||| SHARED

end Prot

/-- `prot::prot(mask_t f)` masks out unsupported bits on construction. -/
def mk_prot (f : Nat) : Nat := f &&& Prot.ALL_BITS

end Mm

/-! ## VA layout (`mm_va_layout.hpp`)

The compile-time configuration (`UKERNEL_VA_BITS`, the two slot sizes) is a
parameter of the embedding; `ukimage_va_base`/`ukimage_pa_base`/
`ukimage_size` are runtime variables, also parameters.
-/

namespace VaLayout

/-- Compile-time layout configuration (`config.h` inputs). -/
structure Layout where
  vaBits : Nat
  ukimageSlotSize : Nat
  devmapSlotSize : Nat
deriving DecidableEq, Repr

/-- `ukernel_va_size = uintptr{1} << va_bits`. -/
def ukernel_va_size (l : Layout) : Nat := (1 <<< l.vaBits) % U64

/-- `ukernel_va_end = ~uintptr{0}`. -/
def ukernel_va_end : Nat := U64 - 1

/-- `ukernel_va_start = ~(ukernel_va_size - 1)`. -/
def ukernel_va_start (l : Layout) : Nat := compl64 (sub64 (ukernel_va_size l) 1)

/-- `ukimage_end = ukernel_va_end`. -/
def ukimage_end : Nat := ukernel_va_end

/-- `ukimage_va = ukimage_end - ukimage_slot_size + 1`. -/
def ukimage_va (l : Layout) : Nat := add64 (sub64 ukimage_end l.ukimageSlotSize) 1

/-- `devmap_end = ukimage_va - 1`. -/
def devmap_end (l : Layout) : Nat := sub64 (ukimage_va l) 1

/-- `devmap_va = devmap_end - devmap_slot_size + 1`. -/
def devmap_va (l : Layout) : Nat := add64 (sub64 (devmap_end l) l.devmapSlotSize) 1

/-- `page_offset = ukernel_va_start`. -/
def page_offset (l : Layout) : Nat := ukernel_va_start l

/-- `page_end = devmap_va - 1`. -/
def page_end (l : Layout) : Nat := sub64 (devmap_va l) 1

/-- Boot-time image placement (`ukimage_va_base`, `ukimage_pa_base`,
`ukimage_size` runtime variables of mm_va_layout.cpp). -/
structure ImageVars where
  ukimageVaBase : Nat
  ukimagePaBase : Nat
  ukimageSize : Nat
deriving DecidableEq, Repr

/-- `is_direct_map(va)` : `page_offset <= va && va <= page_end`. -/
def is_direct_map (l : Layout) (va : Nat) : Bool :=
  decide (page_offset l ≤ va) && decide (va ≤ page_end l)

/-- `is_ukimage(va)` : `ukimage_va_base <= va && va <= ukimage_va_base +
ukimage_size - 1`. -/
def is_ukimage (iv : ImageVars) (va : Nat) : Bool :=
  decide (iv.ukimageVaBase ≤ va) &&
    decide (va ≤ sub64 (add64 iv.ukimageVaBase iv.ukimageSize) 1)

/-- `phys_to_virt(pa, mmu_on)` : identity when the MMU is off, otherwise
`page_offset + pa`. -/
def phys_to_virt (l : Layout) (pa : Nat) (mmu_on : Bool) : Nat :=
  if !mmu_on then pa % U64 else add64 (page_offset l) pa

/-- `virt_to_phys(va, mmu_on)` : identity when the MMU is off; otherwise
direct-map window maps linearly from PA 0, the image window maps to
`ukimage_pa_base + (va - ukimage_va_base)`, anything else is `nullopt`. -/
def virt_to_phys (l : Layout) (iv : ImageVars) (va : Nat) (mmu_on : Bool) :
    Option Nat :=
  if !mmu_on then some (va % U64)
  else if is_direct_map l va then some (sub64 va (page_offset l))
  else if is_ukimage iv va then
    some (add64 iv.ukimagePaBase (sub64 va iv.ukimageVaBase))
  else none

end VaLayout

/-! ## PTE descriptor encoding (`mm_paging.hpp`) -/

namespace Paging

/-- Translation stage kind. -/
inductive stage
  | ST_1
  | ST_2
deriving DecidableEq, Repr

/- Descriptor type bits 1:0 (mm_paging.hpp, "DESCRIPTOR TYPES"). -/

def PTE_TYPE_MASK : Nat := 0x3
def PTE_TYPE_FAULT : Nat := 0x0
def PTE_TYPE_BLOCK : Nat := 0x1
def PTE_TYPE_PAGE_OR_TABLE : Nat := 0x3
def PTE_TYPE_PAGE : Nat := PTE_TYPE_PAGE_OR_TABLE
def PTE_TYPE_TABLE : Nat := PTE_TYPE_PAGE_OR_TABLE

def pte_is_fault (pte : Nat) : Bool := pte &&& PTE_TYPE_MASK == PTE_TYPE_FAULT
def pte_is_block (pte : Nat) : Bool := pte &&& PTE_TYPE_MASK == PTE_TYPE_BLOCK
def pte_is_table_or_page (pte : Nat) : Bool :=
  pte &&& PTE_TYPE_MASK == PTE_TYPE_PAGE_OR_TABLE

/-- The type bits (bits 1:0) of a descriptor. -/
def pte_type_bits (pte : Nat) : Nat := pte &&& PTE_TYPE_MASK

/- Stage-1 attribute fields (Figure D8-16). -/

def PTE_ATTRINDX (idx : Nat) : Nat := (idx &&& 0x7) <<< 2
def MAIR_IDX_NORMAL : Nat := 0
def MAIR_IDX_DEVICE : Nat := 1
def PTE_AP_RW_EL2 : Nat := 0 <<< 6
def PTE_AP_RW_EL0_EL2 : Nat := 1 <<< 6
def PTE_AP_RO_EL2 : Nat := 2 <<< 6
def PTE_AP_RO_EL0_EL2 : Nat := 3 <<< 6
def PTE_SH_NON_SHAREABLE : Nat := 0 <<< 8
def PTE_SH_OUTER_SHAREABLE : Nat := 2 <<< 8
def PTE_SH_INNER_SHAREABLE : Nat := 3 <<< 8
def PTE_AF : Nat := 1 <<< 10
def PTE_nG : Nat := 1 <<< 11
def PTE_PXN : Nat := 1 <<< 53
def PTE_UXN : Nat := 1 <<< 54

/- Stage-2 attribute fields (Figure D8-17). -/

def PTE_S2_MEMATTR (attr : Nat) : Nat := (attr &&& 0xf) <<< 2
def S2_MEMATTR_DEVICE_nGnRnE : Nat := 0x0
def S2_MEMATTR_NORMAL_WB : Nat := 0xF
def PTE_S2_AP_RDONLY : Nat := 1 <<< 6
def PTE_S2_AP_RDWR : Nat := 3 <<< 6
def PTE_S2_AF : Nat := 1 <<< 10

/-- `pte_phys_field_mask()` : `((1 << pa_bits) - 1) & ~(granule_size - 1)`,
parameterized by the negotiated `cpu_state.pa_bits` and the compile-time
granule shift. -/
def pte_phys_field_mask (paBits pageShift : Nat) : Nat :=
  (2 ^ paBits - 1) &&& (U64 - 2 ^ pageShift)

/-- `pte_attr_field_mask()` : `~pte_phys_field_mask() & ~PTE_TYPE_MASK`. -/
def pte_attr_field_mask (paBits pageShift : Nat) : Nat :=
  compl64 (pte_phys_field_mask paBits pageShift) &&& compl64 PTE_TYPE_MASK

/-- `pte_encoder_base::phys_to_pte`. -/
def phys_to_pte (paBits pageShift pa : Nat) : Nat :=
  pa &&& pte_phys_field_mask paBits pageShift

/-- `pte_encoder_base::pte_to_phys`. -/
def pte_to_phys (paBits pageShift pte : Nat) : Nat :=
  pte &&& pte_phys_field_mask paBits pageShift

/-- `pte_encoder_base::make_table`. -/
def make_table (paBits pageShift pa : Nat) : Nat :=
  PTE_TYPE_TABLE ||| phys_to_pte paBits pageShift pa

/-- `pte_encoder_base::make_leaf_page_attr`. -/
def make_leaf_page_attr (paBits pageShift pa attr : Nat) : Nat :=
  PTE_TYPE_PAGE ||| attr ||| phys_to_pte paBits pageShift pa

/-- `pte_encoder_base::make_leaf_block_attr`. -/
def make_leaf_block_attr (paBits pageShift pa attr : Nat) : Nat :=
  PTE_TYPE_BLOCK ||| attr ||| phys_to_pte paBits pageShift pa

/-- `pte_encoder<stage::ST_1>::encode_attrs`. -/
def encode_attrs_st1 (p : Nat) (device : Bool) : Nat :=
  let pte := PTE_TYPE_FAULT
  let pte := pte ||| PTE_ATTRINDX (if device then MAIR_IDX_DEVICE else MAIR_IDX_NORMAL)
  let pte := pte ||| PTE_AF
  let pte := pte |||
    (if (p &&& Mm.Prot.SHARED) ≠ 0 then PTE_SH_INNER_SHAREABLE
     else PTE_SH_NON_SHAREABLE)
  let pte :=
    if (p &&& Mm.Prot.KERNEL) ≠ 0 then
      pte ||| (if (p &&& Mm.Prot.WRITE) ≠ 0 then PTE_AP_RW_EL2 else PTE_AP_RO_EL2)
    else
      pte |||
        (if (p &&& Mm.Prot.WRITE) ≠ 0 then PTE_AP_RW_EL0_EL2 else PTE_AP_RO_EL0_EL2) |||
        PTE_nG
  if (p &&& Mm.Prot.EXECUTE) = 0 then pte ||| (PTE_PXN ||| PTE_UXN) else pte

/-- `pte_encoder<stage::ST_2>::encode_attrs`. -/
def encode_attrs_st2 (p : Nat) (device : Bool) : Nat :=
  let pte := PTE_TYPE_FAULT
  let pte := pte |||
    PTE_S2_MEMATTR (if device then S2_MEMATTR_DEVICE_nGnRnE else S2_MEMATTR_NORMAL_WB)
  let pte := pte ||| PTE_AF
  let rd := (p &&& Mm.Prot.READ) ≠ 0
  let wr := (p &&& Mm.Prot.WRITE) ≠ 0
  let pte :=
    if rd ∧ wr then pte ||| PTE_S2_AP_RDWR
    else if rd ∧ ¬wr then pte ||| PTE_S2_AP_RDONLY
    else pte
  if (p &&& Mm.Prot.EXECUTE) = 0 then pte ||| PTE_UXN else pte

/-- Stage dispatch for `encode_attrs` (the CRTP `Derived::encode_attrs`). -/
def encode_attrs (stg : stage) (p : Nat) (device : Bool) : Nat :=
  match stg with
  | .ST_1 => encode_attrs_st1 p device
  | .ST_2 => encode_attrs_st2 p device

/-- `pte_encoder_base::make_leaf_page`. -/
def make_leaf_page (stg : stage) (paBits pageShift pa p : Nat) (device : Bool) :
    Nat :=
  make_leaf_page_attr paBits pageShift pa (encode_attrs stg p device)

/-- `pte_encoder_base::make_leaf_block`. -/
def make_leaf_block (stg : stage) (paBits pageShift pa p : Nat) (device : Bool) :
    Nat :=
  make_leaf_block_attr paBits pageShift pa (encode_attrs stg p device)

end Paging

/-! ## Arithmetic helper lemmas for the 64-bit wrap operations -/

theorem U64_pos : 0 < U64 := by decide

theorem add64_eq_of_lt {x y : Nat} (h : x + y < U64) : add64 x y = x + y :=
  Nat.mod_eq_of_lt h

theorem sub64_eq_of_le {x y : Nat} (hy : y ≤ x) (hx : x < U64) (hyU : y < U64) :
    sub64 x y = x - y := by
  unfold sub64
  rw [Nat.mod_eq_of_lt hyU]
  have h1 : x + (U64 - y) = (x - y) + U64 := by
    have := U64_pos
    omega
  rw [h1, Nat.add_mod_right]
  exact Nat.mod_eq_of_lt (by omega)

theorem compl64_eq_of_lt {x : Nat} (hx : x < U64) : compl64 x = U64 - 1 - x := by
  unfold compl64
  rw [Nat.mod_eq_of_lt hx]

/-! ## Bit-level lemmas about the PTE physical-address field -/

namespace Paging

theorem phys_mask_testBit_iff (paBits pageShift i : Nat) (hs : pageShift ≤ 64) :
    (pte_phys_field_mask paBits pageShift).testBit i = true ↔
      pageShift ≤ i ∧ i < paBits ∧ i < 64 := by
  have h1 : U64 - 2 ^ pageShift = (2 ^ (64 - pageShift) - 1) <<< pageShift := by
    rw [Nat.shiftLeft_eq, Nat.sub_one_mul]
    have h2 : 2 ^ (64 - pageShift) * 2 ^ pageShift = 2 ^ 64 := by
      rw [← pow_add]
      congr 1
      omega
    unfold U64
    rw [h2]
  unfold pte_phys_field_mask
  rw [h1, Nat.testBit_land, Nat.testBit_shiftLeft, Nat.testBit_two_pow_sub_one,
    Nat.testBit_two_pow_sub_one]
  simp only [Bool.and_eq_true, decide_eq_true_eq]
  omega

theorem pa_testBit_range {pa paBits pageShift i : Nat}
    (halign : pa % 2 ^ pageShift = 0) (hlt : pa < 2 ^ paBits)
    (h : pa.testBit i = true) : pageShift ≤ i ∧ i < paBits := by
  constructor
  · by_contra hc
    push_neg at hc
    have h2 := Nat.testBit_mod_two_pow pa pageShift i
    rw [halign, Nat.zero_testBit] at h2
    rw [h] at h2
    simp only [Bool.and_true] at h2
    have : i < pageShift := hc
    simp [this] at h2
  · by_contra hc
    push_neg at hc
    have hpi : pa < 2 ^ i :=
      lt_of_lt_of_le hlt (Nat.pow_le_pow_right (by norm_num) hc)
    rw [Nat.testBit_lt_two_pow hpi] at h
    exact absurd h (by simp)

theorem attr_bound_of_bits (c : Nat) (hc : c < 2 ^ 55)
    (h : ∀ i < 55, c.testBit i = true → i < 12 ∨ 48 ≤ i) :
    ∀ i, c.testBit i = true → i < 12 ∨ 48 ≤ i := by
  intro i hi
  by_cases h55 : i < 55
  · exact h i h55 hi
  · have hci : c < 2 ^ i :=
      lt_of_lt_of_le hc (Nat.pow_le_pow_right (by norm_num) (by omega))
    rw [Nat.testBit_lt_two_pow hci] at hi
    exact absurd hi (by simp)

theorem encode_attrs_bits (stg : stage) (p : Nat) (device : Bool) :
    ∀ i, (encode_attrs stg p device).testBit i = true → i < 12 ∨ 48 ≤ i := by
  cases stg <;> cases device <;>
    simp only [encode_attrs, encode_attrs_st1, encode_attrs_st2] <;>
    repeat' split
  all_goals exact attr_bound_of_bits _ (by decide) (by decide)

theorem leaf_and_mask_eq {paBits pageShift pa : Nat} (typ attr : Nat)
    (hshift : 12 ≤ pageShift) (hs64 : pageShift ≤ 64) (hpb : paBits ≤ 48)
    (halign : pa % 2 ^ pageShift = 0) (hlt : pa < 2 ^ paBits)
    (htyp : typ < 4)
    (hattr : ∀ i, attr.testBit i = true → i < 12 ∨ 48 ≤ i) :
    (typ ||| attr ||| phys_to_pte paBits pageShift pa) &&&
      pte_phys_field_mask paBits pageShift = pa := by
  apply Nat.eq_of_testBit_eq
  intro i
  unfold phys_to_pte
  rw [Nat.testBit_land, Nat.testBit_lor, Nat.testBit_lor, Nat.testBit_land]
  by_cases hm : (pte_phys_field_mask paBits pageShift).testBit i = true
  · have hmi := (phys_mask_testBit_iff paBits pageShift i hs64).1 hm
    have ht : typ.testBit i = false := by
      apply Nat.testBit_lt_two_pow
      calc typ < 4 := htyp
        _ = 2 ^ 2 := by norm_num
        _ ≤ 2 ^ i := Nat.pow_le_pow_right (by norm_num) (by omega)
    have ha : attr.testBit i = false := by
      cases hA : attr.testBit i
      · rfl
      · exfalso
        rcases hattr i hA with h1 | h1 <;> omega
    rw [hm, ht, ha]
    simp
  · have hm' : (pte_phys_field_mask paBits pageShift).testBit i = false :=
      Bool.eq_false_iff.mpr hm
    rw [hm']
    simp only [Bool.and_false, Bool.false_and]
    cases hp : pa.testBit i
    · rfl
    · exfalso
      have hr := pa_testBit_range halign hlt hp
      exact hm ((phys_mask_testBit_iff paBits pageShift i hs64).2
        ⟨hr.1, hr.2, by omega⟩)

end Paging

/-! ## Claim theorems: C3, C7, C8, C10 -/

/-- C3: For both stages, every protection set, device flag and every legal
(granule-aligned, below `2 ^ pa_bits`) physical address `pa`, decoding the
encoded leaf returns the same address:
`pte_to_phys (make_leaf_page pa p device) = pa` and
`pte_to_phys (make_leaf_block pa p device) = pa`.  The hypotheses record the
source-side constraints: the granule shift is 12 (4 KiB) or 14 (16 KiB) and
the negotiated `pa_bits` is capped at 48 by `parange_bits()`. -/
theorem c3_pte_phys_roundtrip (stg : Paging.stage) (paBits pageShift pa p : Nat)
    (device : Bool)
    (hshift : pageShift = 12 ∨ pageShift = 14) (hpb : paBits ≤ 48)
    (halign : pa % 2 ^ pageShift = 0) (hlt : pa < 2 ^ paBits) :
    Paging.pte_to_phys paBits pageShift
        (Paging.make_leaf_page stg paBits pageShift pa p device) = pa ∧
    Paging.pte_to_phys paBits pageShift
        (Paging.make_leaf_block stg paBits pageShift pa p device) = pa := by
  have h12 : 12 ≤ pageShift := by omega
  have h64 : pageShift ≤ 64 := by omega
  constructor
  · exact Paging.leaf_and_mask_eq Paging.PTE_TYPE_PAGE _ h12 h64 hpb halign hlt
      (by decide) (Paging.encode_attrs_bits stg p device)
  · exact Paging.leaf_and_mask_eq Paging.PTE_TYPE_BLOCK _ h12 h64 hpb halign hlt
      (by decide) (Paging.encode_attrs_bits stg p device)

/-- Witness for C3 at a concrete legal input (stage-1, 4 KiB granule,
`pa_bits = 48`, `pa = 0x8000_0000`, `prot = KERNEL_RW`). -/
theorem c3_pte_phys_roundtrip_witness :
    (0x80000000 % 2 ^ 12 = 0 ∧ 0x80000000 < 2 ^ 48) ∧
    (Paging.pte_to_phys 48 12
        (Paging.make_leaf_page .ST_1 48 12 0x80000000
          (Mm.mk_prot Mm.Prot.KERNEL_RW) false) = 0x80000000 ∧
     Paging.pte_to_phys 48 12
        (Paging.make_leaf_block .ST_1 48 12 0x80000000
          (Mm.mk_prot Mm.Prot.KERNEL_RW) false) = 0x80000000) :=
  ⟨by decide,
   c3_pte_phys_roundtrip .ST_1 48 12 0x80000000 (Mm.mk_prot Mm.Prot.KERNEL_RW)
     false (Or.inl rfl) (by decide) (by decide) (by decide)⟩

/-- C7: evaluation of both subtraction operators at the concrete input
`a = 10`, `off = 3`.  The `addr_types.hpp` wrapper's `operator-` returns
`13` (it executes `a += off`, contradicting its own "Return `a - off`"
comment), while the `mm.hpp` CRTP wrapper correctly returns `7`.  Addition
behaves as specified in both families. -/
theorem c7_address_sub_off_adds :
    AddrTypes.address_sub_off 10 3 = 13 ∧
    Mm.address_base_sub_off 10 3 = 7 ∧
    AddrTypes.address_add_off 10 3 = 13 ∧
    Mm.address_base_add_off 10 3 = 13 := by
  refine ⟨?_, ?_, ?_, ?_⟩ <;> decide

/-- C8 counterexample: the type bits of a table descriptor are *not*
distinct from the type bits of a page descriptor: both are `0b11`
(`PTE_TYPE_TABLE = PTE_TYPE_PAGE = PTE_TYPE_PAGE_OR_TABLE` in the source),
shown here at the concrete address `0x4000_0000`. -/
theorem c8_table_type_bits_equal_page :
    Paging.pte_type_bits (Paging.make_table 48 12 0x40000000) =
      Paging.pte_type_bits
        (Paging.make_leaf_page .ST_1 48 12 0x40000000
          (Mm.mk_prot Mm.Prot.KERNEL_RW) false) ∧
    Paging.PTE_TYPE_TABLE = Paging.PTE_TYPE_PAGE := by
  exact ⟨by decide, rfl⟩

/-- C8 (amended): for every physical address `pa`, the type bits of
`make_table pa` equal `PTE_TYPE_TABLE` (`0b11`), which is distinct from the
BLOCK (`0b01`) and FAULT (`0b00`) encodings; the PAGE encoding shares the
same `0b11` type bits and is distinguished from TABLE by level, not by the
type bits. -/
theorem c8_make_table_type_bits (paBits pageShift pa : Nat)
    (h2 : 2 ≤ pageShift) (h64 : pageShift ≤ 64) :
    Paging.pte_type_bits (Paging.make_table paBits pageShift pa) =
      Paging.PTE_TYPE_TABLE ∧
    Paging.PTE_TYPE_TABLE ≠ Paging.PTE_TYPE_BLOCK ∧
    Paging.PTE_TYPE_TABLE ≠ Paging.PTE_TYPE_FAULT ∧
    Paging.PTE_TYPE_TABLE = Paging.PTE_TYPE_PAGE := by
  refine ⟨?_, by decide, by decide, rfl⟩
  apply Nat.eq_of_testBit_eq
  intro i
  unfold Paging.pte_type_bits Paging.make_table Paging.phys_to_pte
  rw [Nat.testBit_land, Nat.testBit_lor, Nat.testBit_land]
  by_cases hi : i < 2
  · have hm : (Paging.pte_phys_field_mask paBits pageShift).testBit i = false := by
      cases hmm : (Paging.pte_phys_field_mask paBits pageShift).testBit i
      · rfl
      · exfalso
        have := (Paging.phys_mask_testBit_iff paBits pageShift i h64).1 hmm
        omega
    rw [hm]
    simp only [Bool.and_false, Bool.or_false]
    have hTM : Paging.PTE_TYPE_TABLE = Paging.PTE_TYPE_MASK := by decide
    rw [hTM, Bool.and_self]
  · have h3 : Paging.PTE_TYPE_TABLE.testBit i = false := by
      apply Nat.testBit_lt_two_pow
      calc Paging.PTE_TYPE_TABLE < 4 := by decide
        _ = 2 ^ 2 := by norm_num
        _ ≤ 2 ^ i := Nat.pow_le_pow_right (by norm_num) (by omega)
    have hmask : Paging.PTE_TYPE_MASK.testBit i = false := by
      apply Nat.testBit_lt_two_pow
      calc Paging.PTE_TYPE_MASK < 4 := by decide
        _ = 2 ^ 2 := by norm_num
        _ ≤ 2 ^ i := Nat.pow_le_pow_right (by norm_num) (by omega)
    rw [h3, hmask]
    simp

/-- Witness for C8 (amended) at `pa_bits = 48`, 4 KiB granule,
`pa = 0x4000_0000`. -/
theorem c8_make_table_type_bits_witness :
    ((2 : Nat) ≤ 12 ∧ (12 : Nat) ≤ 64) ∧
    (Paging.pte_type_bits (Paging.make_table 48 12 0x40000000) =
        Paging.PTE_TYPE_TABLE ∧
     Paging.PTE_TYPE_TABLE ≠ Paging.PTE_TYPE_BLOCK ∧
     Paging.PTE_TYPE_TABLE ≠ Paging.PTE_TYPE_FAULT ∧
     Paging.PTE_TYPE_TABLE = Paging.PTE_TYPE_PAGE) :=
  ⟨by decide, c8_make_table_type_bits 48 12 0x40000000 (by decide) (by decide)⟩

/-- C10: for every physical address `pa` within the span of the direct-map
window (`page_offset + pa ≤ page_end`), the round trip
`virt_to_phys (phys_to_virt pa true) true` is engaged and returns `pa`;
with `mmu_on = false` both functions are numeric identities, so the round
trip also returns `pa`.  The layout hypotheses record the configuration
constraints (nonzero slot sizes fitting inside the `va_bits`-sized space). -/
theorem c10_direct_map_roundtrip (l : VaLayout.Layout) (iv : VaLayout.ImageVars)
    (pa : Nat)
    (hva64 : l.vaBits < 64)
    (hks : 1 ≤ l.ukimageSlotSize) (hds : 1 ≤ l.devmapSlotSize)
    (hslots : l.ukimageSlotSize + l.devmapSlotSize < 2 ^ l.vaBits)
    (hpa : VaLayout.page_offset l + pa ≤ VaLayout.page_end l) :
    VaLayout.virt_to_phys l iv (VaLayout.phys_to_virt l pa true) true = some pa ∧
    VaLayout.virt_to_phys l iv (VaLayout.phys_to_virt l pa false) false = some pa := by
  have hU : (2 : Nat) ^ l.vaBits < U64 := by
    unfold U64
    exact Nat.pow_lt_pow_right (by norm_num) hva64
  have hU1 : 1 ≤ 2 ^ l.vaBits := Nat.one_le_two_pow
  have hsz : VaLayout.ukernel_va_size l = 2 ^ l.vaBits := by
    unfold VaLayout.ukernel_va_size
    rw [Nat.shiftLeft_eq, one_mul]
    exact Nat.mod_eq_of_lt hU
  have hpo : VaLayout.page_offset l = U64 - 2 ^ l.vaBits := by
    unfold VaLayout.page_offset VaLayout.ukernel_va_start
    rw [hsz, sub64_eq_of_le hU1 hU (by have := U64_pos; omega),
      compl64_eq_of_lt (by omega)]
    omega
  have hiva : VaLayout.ukimage_va l = U64 - l.ukimageSlotSize := by
    unfold VaLayout.ukimage_va VaLayout.ukimage_end VaLayout.ukernel_va_end
    rw [sub64_eq_of_le (by omega) (by have := U64_pos; omega) (by omega),
      add64_eq_of_lt (by omega)]
    omega
  have hde : VaLayout.devmap_end l = U64 - l.ukimageSlotSize - 1 := by
    unfold VaLayout.devmap_end
    rw [hiva, sub64_eq_of_le (by omega) (by have := U64_pos; omega)
      (by have := U64_pos; omega)]
  have hdva : VaLayout.devmap_va l =
      U64 - l.ukimageSlotSize - l.devmapSlotSize := by
    unfold VaLayout.devmap_va
    rw [hde, sub64_eq_of_le (by omega) (by have := U64_pos; omega) (by omega),
      add64_eq_of_lt (by omega)]
    omega
  have hpe : VaLayout.page_end l =
      U64 - l.ukimageSlotSize - l.devmapSlotSize - 1 := by
    unfold VaLayout.page_end
    rw [hdva, sub64_eq_of_le (by omega) (by have := U64_pos; omega)
      (by have := U64_pos; omega)]
  have hpaU : pa < U64 := by
    rw [hpo, hpe] at hpa
    have := U64_pos
    omega
  constructor
  · have hva : VaLayout.phys_to_virt l pa true =
        VaLayout.page_offset l + pa := by
      unfold VaLayout.phys_to_virt add64
      simp only [Bool.not_true, Bool.false_eq_true, if_false]
      apply Nat.mod_eq_of_lt
      rw [hpo] at hpa ⊢
      rw [hpe] at hpa
      omega
    rw [hva]
    unfold VaLayout.virt_to_phys
    have hdm : VaLayout.is_direct_map l (VaLayout.page_offset l + pa) = true := by
      unfold VaLayout.is_direct_map
      simp only [Bool.and_eq_true, decide_eq_true_eq]
      omega
    have hsub : sub64 (VaLayout.page_offset l + pa) (VaLayout.page_offset l) = pa := by
      rw [sub64_eq_of_le (by omega) (by rw [hpo, hpe] at hpa; have := U64_pos; omega)
        (by rw [hpo]; have := U64_pos; omega)]
      omega
    simp only [Bool.not_true, Bool.false_eq_true, if_false, hdm, if_true, hsub]
  · unfold VaLayout.phys_to_virt VaLayout.virt_to_phys
    simp only [Bool.not_false, if_true]
    rw [Nat.mod_eq_of_lt hpaU, Nat.mod_eq_of_lt hpaU]

set_option maxRecDepth 200000 in
/-- Witness for C10: `va_bits = 39`, both slots 1 GiB, `pa = 0x1000`. -/
theorem c10_direct_map_roundtrip_witness :
    (VaLayout.page_offset ⟨39, 2 ^ 30, 2 ^ 30⟩ + 0x1000 ≤
      VaLayout.page_end ⟨39, 2 ^ 30, 2 ^ 30⟩) ∧
    (VaLayout.virt_to_phys ⟨39, 2 ^ 30, 2 ^ 30⟩ ⟨0, 0, 0⟩
        (VaLayout.phys_to_virt ⟨39, 2 ^ 30, 2 ^ 30⟩ 0x1000 true) true =
        some 0x1000 ∧
     VaLayout.virt_to_phys ⟨39, 2 ^ 30, 2 ^ 30⟩ ⟨0, 0, 0⟩
        (VaLayout.phys_to_virt ⟨39, 2 ^ 30, 2 ^ 30⟩ 0x1000 false) false =
        some 0x1000) :=
  ⟨by decide,
   c10_direct_map_roundtrip ⟨39, 2 ^ 30, 2 ^ 30⟩ ⟨0, 0, 0⟩ 0x1000
     (by decide) (by decide) (by decide) (by decide) (by decide)⟩

/-! ## GZIP/DEFLATE decoder (`src/efi/gzip_decompress.c`) -/

namespace Gzip

def ERR_NONE : Nat := 0
def ERR_OVERFLOW : Nat := 1
def ERR_SYMBOL : Nat := 2
def ERR_UNDEFINED : Nat := 3

/-- Model-only error code: the C code performs an out-of-bounds array read
(undefined behaviour in C); the embedding makes that read explicit instead
of returning garbage. -/
def ERR_OOB : Nat := 100

def MAX_BITS : Nat := 16
def MAX_SYMBOLS : Nat := 288
def MAX_DISTANCE : Nat := 32

/-- `struct tree`: canonical Huffman tree as bit-length counts plus symbols
sorted by code length. -/
structure Tree where
  bl_count : List Nat
  sorted_symbols : List Nat
deriving Repr, DecidableEq

/-- `struct deflate`: decoder state.  `input` is the remaining
`[in_ptr, in_end)` bytes; `dest` is everything written through `d->dest`
since the start of decoding.  `oob_index` is model-only: it records the
index of an out-of-bounds fixed-table access (undefined behaviour in C). -/
structure DeflateSt where
  input : List Nat
  dest : List Nat
  error : Nat
  bit_accum : Nat
  nr_bits : Nat
  dest_size : Nat
  oob_index : Option Nat
deriving Repr, DecidableEq

/-- The byte-pulling `while` loop of `get_bits`.  The loop adds 8 bits per
iteration and stops once `nr` bits are available, so `nr + 1` iterations of
fuel always suffice. -/
def get_bits_fill (nr : Nat) : Nat → DeflateSt → DeflateSt
  | 0, d => d
  | fuel + 1, d =>
    if d.nr_bits < nr then
      match d.input with
      | [] => { d with error := ERR_OVERFLOW }
      | b :: rest =>
          get_bits_fill nr fuel
            { d with
              input := rest
              bit_accum := (d.bit_accum ||| (b <<< d.nr_bits)) % 2 ^ 32
              nr_bits := d.nr_bits + 8 }
    else d

/-- `get_bits(d, nr_bits)`. -/
def get_bits (d : DeflateSt) (nr : Nat) : Nat × DeflateSt :=
  if d.error ≠ ERR_NONE then (0, d)
  else
    let d := get_bits_fill nr (nr + 1) d
    if d.error ≠ ERR_NONE then (0, d)
    else
      let bits := d.bit_accum &&& (2 ^ nr - 1)
      (bits, { d with bit_accum := d.bit_accum >>> nr, nr_bits := d.nr_bits - nr })

/-- `get_extra_bits(d, nr_bits, base)`. -/
def get_extra_bits (d : DeflateSt) (nr base : Nat) : Nat × DeflateSt :=
  let (bits, d) := if nr ≠ 0 then get_bits d nr else (0, d)
  (base + bits, d)

/-- The `for (i = 1; i < MAX_BITS; i++)` body of `decode_symbol`; `fuel`
counts the remaining levels (15 at the top call). -/
def decode_symbol_go (tree : Tree) (sum offs i : Nat) :
    Nat → DeflateSt → Nat × DeflateSt
  | 0, d => (0, { d with error := ERR_SYMBOL })
  | fuel + 1, d =>
    let (b, d) := get_bits d 1
    if d.error ≠ ERR_NONE then (0, d)
    else
      let offs := 2 * offs + b
      let cnt := tree.bl_count.getD i 0
      if offs < cnt then (tree.sorted_symbols.getD (sum + offs) 0, d)
      else decode_symbol_go tree (sum + cnt) (offs - cnt) (i + 1) fuel d

/-- `decode_symbol(d, tree)`. -/
def decode_symbol (d : DeflateSt) (tree : Tree) : Nat × DeflateSt :=
  decode_symbol_go tree 0 0 1 (MAX_BITS - 1) d

/-- The fixed literal/length tree built by `huffman_fixed_tree`. -/
def fixed_lt : Tree :=
  { bl_count := [0, 0, 0, 0, 0, 0, 0, 24, 152, 112, 0, 0, 0, 0, 0, 0]
    sorted_symbols :=
      (List.range 24).map (256 + ·) ++ List.range 144 ++
        (List.range 8).map (280 + ·) ++ (List.range 112).map (144 + ·) }

/-- The fixed distance tree built by `huffman_fixed_tree` (32 symbols, all
5-bit codes). -/
def fixed_dt : Tree :=
  { bl_count := [0, 0, 0, 0, 0, 32, 0, 0, 0, 0, 0, 0, 0, 0, 0, 0]
    sorted_symbols := List.range 32 }

/-- `huffman_tree(tree, lengths, nr_sym)`: canonical tree construction.
`bl_count[i]` counts symbols of length `i` (`bl_count[0]` forced to 0);
`sorted_symbols` lists the symbols of each nonzero length in increasing
symbol order, lengths in increasing order (this is what the offset-array
construction in the source computes). -/
def huffman_tree (lengths : List Nat) (nr_sym : Nat) : Tree :=
  { bl_count :=
      (List.range MAX_BITS).map fun i =>
        if i = 0 then 0
        else ((List.range nr_sym).filter fun s => lengths.getD s 0 = i).length
    sorted_symbols :=
      (((List.range MAX_BITS).drop 1).map fun len =>
        (List.range nr_sym).filter fun s => lengths.getD s 0 = len).flatten }

/-- `length_bits[30]` (deflate_block). -/
def length_bits : List Nat :=
  [0, 0, 0, 0, 0, 0, 0, 0, 1, 1, 1, 1, 2, 2, 0x2,
   2, 3, 3, 3, 3, 4, 4, 4, 4, 5, 5, 5, 5, 0, 127]

/-- `length_base[30]` (deflate_block). -/
def length_base : List Nat :=
  [3, 4, 5, 6, 7, 8, 9, 10, 11, 13, 15, 17, 19, 23, 27,
   0x1F, 35, 43, 51, 59, 67, 83, 99, 115, 131, 163, 195, 227, 258, 0]

/-- `dist_bits[30]` (deflate_block): exactly 30 entries. -/
def dist_bits : List Nat :=
  [0, 0, 0, 0, 1, 1, 2, 2, 3, 3, 4, 4, 5, 5, 6,
   6, 7, 0x7, 8, 8, 9, 9, 10, 10, 11, 11, 12, 12, 13, 13]

/-- `dist_base[30]` (deflate_block): exactly 30 entries. -/
def dist_base : List Nat :=
  [1, 2, 3, 4, 5, 7, 9, 13, 17, 25,
   33, 49, 65, 97, 129, 193, 257, 385, 513, 0x301,
   1025, 1537, 2049, 3073, 4097, 6145, 8193, 12289, 16385, 24577]

/-- The back-reference copy loop
`for (i = 0; i < len; i++) d->dest[i] = d->dest[i - offset];`.
Reading before the start of the output buffer (offset larger than the bytes
produced so far) is undefined behaviour in C and yields 0 here. -/
def back_copy (offset : Nat) : Nat → List Nat → List Nat
  | 0, dest => dest
  | n + 1, dest => back_copy offset n (dest ++ [dest.getD (dest.length - offset) 0])

/-- One `while (1)` iteration body plus loop of `deflate_block`;
`blockStart` is the output length at block entry (the local `dest` pointer
copy used for `dest_size` accounting). -/
def deflate_block_go (lt dt : Tree) (blockStart : Nat) :
    Nat → DeflateSt → DeflateSt
  | 0, d => d
  | fuel + 1, d =>
    let (sym, d) := decode_symbol d lt
    if d.error ≠ ERR_NONE then d
    else if sym = 256 then
      { d with dest_size := d.dest_size + (d.dest.length - blockStart) }
    else if sym < 256 then
      deflate_block_go lt dt blockStart fuel { d with dest := d.dest ++ [sym] }
    else if sym > 285 then { d with error := ERR_SYMBOL }
    else
      let (len, d) :=
        get_extra_bits d (length_bits.getD (sym - 257) 0)
          (length_base.getD (sym - 257) 0)
      if d.error ≠ ERR_NONE then d
      else
        let (dist_sym, d) := decode_symbol d dt
        if d.error ≠ ERR_NONE then d
        else if dist_sym ≥ MAX_DISTANCE then { d with error := ERR_SYMBOL }
        else
          match dist_bits.get? dist_sym, dist_base.get? dist_sym with
          | some db, some dbase =>
            let (offset, d) := get_extra_bits d db dbase
            if d.error ≠ ERR_NONE then d
            else
              deflate_block_go lt dt blockStart fuel
                { d with dest := back_copy offset len d.dest }
          | _, _ => { d with error := ERR_OOB, oob_index := some dist_sym }

/-- `deflate_block(d)` with the given literal/length and distance trees. -/
def deflate_block (lt dt : Tree) (fuel : Nat) (d : DeflateSt) : DeflateSt :=
  deflate_block_go lt dt d.dest.length fuel d

/-- `deflate_uncompressed_block(d)`. -/
def deflate_uncompressed_block (d : DeflateSt) : DeflateSt :=
  if d.input.length < 4 then { d with error := ERR_OVERFLOW }
  else
    let len := d.input.getD 0 0 + 256 * d.input.getD 1 0
    let rest := d.input.drop 4
    if rest.length < len then { d with error := ERR_OVERFLOW }
    else
      { d with
        input := rest.drop len
        dest := d.dest ++ rest.take len
        dest_size := d.dest_size + len
        bit_accum := 0
        nr_bits := 0 }

/-- `code_len_for_code_idx[19]` (huffman_dynamic_tree). -/
def code_len_for_code_idx : List Nat :=
  [16, 17, 18, 0, 8, 7, 9, 6, 10, 5, 11, 4, 12, 3, 13, 2, 14, 1, 15]

/-- The `for (i = 0; i < hclen; i++)` loop reading the code-length-code
lengths; the first argument counts the remaining iterations (`hclen - i`). -/
def read_cl_lengths : Nat → Nat → List Nat → DeflateSt →
    List Nat × DeflateSt
  | 0, _, lengths, d => (lengths, d)
  | n + 1, i, lengths, d =>
    let (v, d) := get_bits d 3
    if d.error ≠ ERR_NONE then (lengths, d)
    else
      read_cl_lengths n (i + 1)
        (lengths.set (code_len_for_code_idx.getD i 0) v) d

/-- `while (runlen--) lengths[i++] = sym;`. -/
def write_run (sym : Nat) : Nat → Nat → List Nat → Nat × List Nat
  | 0, i, lengths => (i, lengths)
  | n + 1, i, lengths => write_run sym n (i + 1) (lengths.set i sym)

/-- The run-length decoding loop of `huffman_dynamic_tree`; each iteration
advances `i` by at least 1, so `hlit + hdist` iterations of fuel suffice. -/
def dyn_rle_go (lt : Tree) (total : Nat) : Nat → Nat → List Nat →
    DeflateSt → List Nat × DeflateSt
  | 0, _, lengths, d => (lengths, d)
  | fuel + 1, i, lengths, d =>
    if i < total then
      let (sym, d) := decode_symbol d lt
      if d.error ≠ ERR_NONE then (lengths, d)
      else
        let (sym, runlen, d) :=
          if sym = 16 then
            if i = 0 then (0, 0, { d with error := ERR_SYMBOL })
            else
              let (r, d) := get_extra_bits d 2 3
              (lengths.getD (i - 1) 0, r, d)
          else if sym = 17 then
            let (r, d) := get_extra_bits d 3 3
            (0, r, d)
          else if sym = 18 then
            let (r, d) := get_extra_bits d 7 11
            (0, r, d)
          else (sym, 1, d)
        if d.error ≠ ERR_NONE then (lengths, d)
        else
          let (i, lengths) := write_run sym runlen i lengths
          dyn_rle_go lt total fuel i lengths d
    else (lengths, d)

/-- `huffman_dynamic_tree(d, lt, dt)`. -/
def huffman_dynamic_tree (d : DeflateSt) : Tree × Tree × DeflateSt :=
  let dummy : Tree := ⟨[], []⟩
  let (hlit, d) := get_extra_bits d 5 257
  let (hdist, d) := get_extra_bits d 5 1
  let (hclen, d) := get_extra_bits d 4 4
  if d.error ≠ ERR_NONE then (dummy, dummy, d)
  else
    let lengths := List.replicate (MAX_SYMBOLS + MAX_DISTANCE) 0
    let (lengths, d) := read_cl_lengths hclen 0 lengths d
    if d.error ≠ ERR_NONE then (dummy, dummy, d)
    else
      let lt := huffman_tree lengths 19
      let (lengths, d) := dyn_rle_go lt (hlit + hdist) (hlit + hdist) 0 lengths d
      if d.error ≠ ERR_NONE then (dummy, dummy, d)
      else (huffman_tree lengths hlit, huffman_tree (lengths.drop hlit) hdist, d)

/-- The `do { ... } while` block loop of `deflate_buffer`. -/
def deflate_buffer_go : Nat → DeflateSt → DeflateSt
  | 0, d => d
  | fuel + 1, d =>
    let (block_final, d) := get_bits d 1
    let (block_type, d) := get_bits d 2
    if d.error ≠ ERR_NONE then d
    else
      let d :=
        if block_type = 0 then deflate_uncompressed_block d
        else if block_type = 1 then
          deflate_block fixed_lt fixed_dt fuel d
        else if block_type = 2 then
          let (lt, dt, d) := huffman_dynamic_tree d
          if d.error = ERR_NONE then deflate_block lt dt fuel d else d
        else { d with error := ERR_UNDEFINED }
      if block_final = 0 ∧ d.error = ERR_NONE then deflate_buffer_go fuel d
      else d

/-- `deflate_buffer(dest, dest_len, source, source_len)`: returns the final
decoder state (the C returns `d.error` and writes `*dest_len`). -/
def deflate_buffer (source : List Nat) : DeflateSt :=
  let d : DeflateSt :=
    { input := source, dest := [], error := ERR_NONE, bit_accum := 0
      nr_bits := 0, dest_size := 0, oob_index := none }
  deflate_buffer_go (8 * source.length + 64) d

end Gzip

/-- C6: evaluation of the decoder at the concrete DEFLATE stream
`[0x03, 0x3E]` — a final fixed-Huffman block containing length symbol 257
followed by distance code 30.  The decoded distance symbol 30 lies outside
0..29, but the guard in `deflate_block` only rejects symbols `>= 32`
(`MAX_DISTANCE`), so the code does *not* fail with the symbol error and
instead reads `dist_bits[30]`/`dist_base[30]` out of bounds of the 30-entry
fixed distance tables (modelled as the explicit `ERR_OOB` outcome). -/
theorem c6_distance_guard_allows_30 :
    (Gzip.deflate_buffer [0x03, 0x3E]).error = Gzip.ERR_OOB ∧
    (Gzip.deflate_buffer [0x03, 0x3E]).oob_index = some 30 ∧
    (Gzip.deflate_buffer [0x03, 0x3E]).error ≠ Gzip.ERR_SYMBOL ∧
    Gzip.dist_bits.length = 30 ∧ Gzip.dist_base.length = 30 ∧
    ¬ (30 ≥ Gzip.MAX_DISTANCE) ∧ 29 < 30 := by
  refine ⟨?_, ?_, by decide, by decide, by decide, by decide, by decide⟩ <;> decide

/-! ## Binary-tree buddy allocator (`allocator.hpp`)

The template parameter `Order` and the compile-time `page_size`
(`granule_size()`) are explicit parameters.  The two bitmaps
(`free_bits[]`/`split_bits[]`, arrays of 64-bit words in the source) are
modelled as single natural numbers: bit `n` of the number is bit `n` of the
bitmap (`word_of_bit`/`bit_in_word` in the source just split that index
into a word index and an offset).
-/

namespace Allocator

/-- `pages_to_order(pages)`: the `while (pages > 1) { pages >>= 1; ++r; }`
loop; the first argument is iteration fuel (the loop halves `pages`, so
`pages` iterations always suffice). -/
def pages_to_order_go : Nat → Nat → Nat → Nat
  | 0, _, r => r
  | fuel + 1, pages, r =>
    if pages > 1 then pages_to_order_go fuel (pages >>> 1) (r + 1) else r

/-- `pages_to_order(pages)`. -/
def pages_to_order (pages : Nat) : Nat := pages_to_order_go pages pages 0

/-- `order_to_pages(order) = 1 << order`. -/
def order_to_pages (order : Nat) : Nat := 1 <<< order

/-- `buddy<Order>` state. -/
structure Buddy where
  base_pa : Nat
  end_pa : Nat
  pool_pages : Nat
  max_ord : Nat
  free_bits : Nat
  split_bits : Nat
deriving DecidableEq, Repr

/-- `test_bit`. -/
def test_bit (bits bit : Nat) : Bool := bits.testBit bit

/-- `set_bit`. -/
def set_bit (bits bit : Nat) : Nat := bits ||| (1 <<< bit)

/-- `clear_bit` (clearing an already-clear bit is a no-op). -/
def clear_bit (bits bit : Nat) : Nat :=
  if bits.testBit bit then bits ^^^ (1 <<< bit) else bits

/-- `is_ok()` : `base_pa < end_pa`. -/
def is_ok (b : Buddy) : Bool := decide (b.base_pa < b.end_pa)

/-- `node_number(order, idx) = 2 ^ (Order - order) + idx`. -/
def node_number (Order order idx : Nat) : Nat := (1 <<< (Order - order)) + idx

/-- `node_to_page_index(node, order) = (node - 2 ^ (Order - order)) << order`. -/
def node_to_page_index (Order node order : Nat) : Nat :=
  (node - (1 <<< (Order - order))) <<< order

/-- The linear scan underlying `find_set_in_range`: first set bit at index
`>= i` within the next `n` indices, else 0.  (The source scans 64-bit words
with count-trailing-zeros; the result is the same first-set-bit index, or 0
when no bit in the half-open range is set.) -/
def find_set_go (bits : Nat) : Nat → Nat → Nat
  | 0, _ => 0
  | n + 1, i => if bits.testBit i then i else find_set_go bits n (i + 1)

/-- `find_set_in_range(bits, first, last)`. -/
def find_set_in_range (bits first last : Nat) : Nat :=
  if first ≥ last then 0 else find_set_go bits (last - first) first

/-- `find_free_node_at_order(order)`. -/
def find_free_node_at_order (Order : Nat) (b : Buddy) (order : Nat) : Nat :=
  find_set_in_range b.free_bits (1 <<< (Order - order))
    (1 <<< (Order - order + 1))

/-- The `for (; o <= max_ord; o++)` search loop of `buddy_alloc_pages`:
returns the found `(node, o)` pair, or `(0, _)` when no free block exists.
Fuel `max_ord - order + 1` covers all iterations. -/
def alloc_find (Order : Nat) (b : Buddy) : Nat → Nat → Nat × Nat
  | 0, o => (0, o)
  | fuel + 1, o =>
    if o ≤ b.max_ord then
      let node := find_free_node_at_order Order b o
      if node ≠ 0 then (node, o) else alloc_find Order b fuel (o + 1)
    else (0, o)

/-- The `while (o > order)` split-down loop of `buddy_alloc_pages`; the
first argument is the iteration count `o - order`.  Returns the updated
`(free_bits, split_bits, node)`. -/
def alloc_split : Nat → Nat → Nat → Nat → Nat × Nat × Nat
  | 0, free, split, node => (free, split, node)
  | k + 1, free, split, node =>
    let split := set_bit split node
    let node := node <<< 1
    let free := set_bit free (node ||| 1)
    alloc_split k free split node

/-- `buddy_alloc_pages(order)`: returns the physical address (0 on failure)
and the updated allocator. -/
def buddy_alloc_pages (Order pageSize : Nat) (b : Buddy) (order : Nat) :
    Nat × Buddy :=
  if ¬ (is_ok b = true) ∨ order > b.max_ord then (0, b)
  else
    let fr := alloc_find Order b (b.max_ord - order + 1) order
    if fr.1 = 0 then (0, b)
    else
      let res := alloc_split (fr.2 - order) (clear_bit b.free_bits fr.1)
        b.split_bits fr.1
      (b.base_pa + node_to_page_index Order res.2.2 order * pageSize,
        { b with free_bits := res.1, split_bits := res.2.1 })

/-- The `while (o < max_ord)` coalescing loop of `buddy_free_pages`; the
first argument is the iteration bound `max_ord - order`. -/
def free_coalesce : Nat → Nat → Nat → Nat → Nat × Nat × Nat
  | 0, free, split, node => (free, split, node)
  | k + 1, free, split, node =>
    let node_bud := node ^^^ 1
    if ¬ (test_bit free node_bud = true) then (free, split, node)
    else
      let free := clear_bit free node
      let free := clear_bit free node_bud
      let node := node >>> 1
      let split := clear_bit split node
      let free := set_bit free node
      free_coalesce k free split node

/-- `buddy_free_pages(pa, order)`. -/
def buddy_free_pages (Order pageSize : Nat) (b : Buddy) (pa order : Nat) :
    Buddy :=
  if ¬ (is_ok b = true) ∨ order > b.max_ord then b
  else if ¬ (pa % pageSize = 0) then b
  else
    let span := order_to_pages order * pageSize
    if pa < b.base_pa ∨ pa > b.end_pa - span then b
    else
      let off := pa - b.base_pa
      let page_idx := off / pageSize
      let node := node_number Order order (page_idx >>> order)
      if test_bit b.split_bits node then b
      else if test_bit b.free_bits node then b
      else
        let free := set_bit b.free_bits node
        let res := free_coalesce (b.max_ord - order) free b.split_bits node
        { b with free_bits := res.1, split_bits := res.2.1 }

/-- The `for (phys_addr it : phys_addr_range(base, end, page_size))` loop
of `buddy_init`, freeing each page through the normal free path. -/
def init_free_all (Order pageSize : Nat) : List Nat → Buddy → Buddy
  | [], b => b
  | pa :: rest, b =>
    init_free_all Order pageSize rest (buddy_free_pages Order pageSize b pa 0)

/-- `buddy_init(pa, size)`. -/
def buddy_init (Order pageSize : Nat) (b : Buddy) (pa size : Nat) :
    error_nr × Buddy :=
  if add64 pa size < pa then (.overflow, b)
  else
    let base := Mm.align_up pa pageSize
    let endp := Mm.align_down (add64 pa size) pageSize
    if endp ≤ base then (.invalid, b)
    else
      let pages := (endp - base) / pageSize
      if pages > order_to_pages Order then (.invalid, b)
      else
        let odr := pages_to_order pages
        let b := { b with
          base_pa := base, end_pa := endp, pool_pages := pages
          max_ord := if odr < Order then odr else Order }
        (.ok, init_free_all Order pageSize
          ((List.range pages).map fun i => base + i * pageSize) b)

/-- `buddy<Order>::init(pa, size)`: reset all state (including the two
bitmaps) to zero, then run `buddy_init`. -/
def buddy_init_from_zero (Order pageSize pa size : Nat) : error_nr × Buddy :=
  buddy_init Order pageSize ⟨0, 0, 0, 0, 0, 0⟩ pa size

/-- `alloc_pages(nothrow, order)`: the non-throwing allocation entry, a
direct wrapper of `buddy_alloc_pages`. -/
def alloc_pages (Order pageSize : Nat) (b : Buddy) (order : Nat) :
    Nat × Buddy :=
  buddy_alloc_pages Order pageSize b order

end Allocator

/-- C5 counterexample: a successfully initialized pool over
`[0x1000, 0x3000)` (`Order = 4`, 4 KiB pages, two pages) hands out
`alloc_pages(1) = 0x1000`, which is *not* aligned to
`level_size(1) = 2 ^ 1 * page_size = 0x2000`. -/
theorem c5_alloc_pages_unaligned :
    (Allocator.buddy_init_from_zero 4 4096 0x1000 0x2000).1 = error_nr.ok ∧
    (Allocator.alloc_pages 4 4096
      (Allocator.buddy_init_from_zero 4 4096 0x1000 0x2000).2 1).1 = 0x1000 ∧
    ¬ (0x1000 % (Allocator.order_to_pages 1 * 4096) = 0) := by
  exact ⟨by decide, by decide, by decide⟩

/-- C5 (amended): any non-zero address returned by `alloc_pages(order)` is
at an offset from `base_pa` that is a multiple of
`level_size(order) = 2 ^ order * page_size`; consequently the address
itself is `level_size(order)`-aligned whenever `base_pa` is (which the
allocator does not itself guarantee: `buddy_init` only aligns the pool base
to the page size). -/
theorem c5_alloc_pages_aligned_rel (Order pageSize : Nat)
    (b : Allocator.Buddy) (order : Nat)
    (hnz : (Allocator.alloc_pages Order pageSize b order).1 ≠ 0) :
    Allocator.order_to_pages order * pageSize ∣
      ((Allocator.alloc_pages Order pageSize b order).1 - b.base_pa) ∧
    b.base_pa ≤ (Allocator.alloc_pages Order pageSize b order).1 ∧
    (b.base_pa % (Allocator.order_to_pages order * pageSize) = 0 →
      (Allocator.alloc_pages Order pageSize b order).1 %
        (Allocator.order_to_pages order * pageSize) = 0) := by
  have hdvd : ∀ node : Nat, Allocator.order_to_pages order * pageSize ∣
      Allocator.node_to_page_index Order node order * pageSize := by
    intro node
    simp only [Allocator.node_to_page_index, Allocator.order_to_pages,
      Nat.shiftLeft_eq, one_mul]
    exact ⟨node - 2 ^ (Order - order), by ring⟩
  unfold Allocator.alloc_pages Allocator.buddy_alloc_pages at hnz ⊢
  dsimp only at hnz ⊢
  by_cases h1 : (¬ (Allocator.is_ok b = true) ∨ order > b.max_ord)
  · rw [if_pos h1] at hnz
    exact absurd rfl hnz
  · rw [if_neg h1] at hnz ⊢
    by_cases h2 : (Allocator.alloc_find Order b (b.max_ord - order + 1) order).1 = 0
    · rw [if_pos h2] at hnz
      exact absurd rfl hnz
    · rw [if_neg h2] at hnz ⊢
      refine ⟨?_, Nat.le_add_right _ _, fun hb => ?_⟩
      · rw [Nat.add_sub_cancel_left]
        exact hdvd _
      · have h3 : Allocator.order_to_pages order * pageSize ∣ b.base_pa :=
          Nat.dvd_of_mod_eq_zero hb
        exact Nat.mod_eq_zero_of_dvd (Nat.dvd_add h3 (hdvd _))

/-- Witness for C5 (amended) at the pool of `c5_alloc_pages_unaligned`:
the returned address `0x1000` sits at offset 0 from `base_pa`, a multiple
of `level_size(1) = 0x2000`. -/
theorem c5_alloc_pages_aligned_rel_witness :
    ((Allocator.alloc_pages 4 4096
        (Allocator.buddy_init_from_zero 4 4096 0x1000 0x2000).2 1).1 ≠ 0) ∧
    (Allocator.order_to_pages 1 * 4096 ∣
      ((Allocator.alloc_pages 4 4096
          (Allocator.buddy_init_from_zero 4 4096 0x1000 0x2000).2 1).1 -
        (Allocator.buddy_init_from_zero 4 4096 0x1000 0x2000).2.base_pa) ∧
     (Allocator.buddy_init_from_zero 4 4096 0x1000 0x2000).2.base_pa ≤
       (Allocator.alloc_pages 4 4096
         (Allocator.buddy_init_from_zero 4 4096 0x1000 0x2000).2 1).1 ∧
     ((Allocator.buddy_init_from_zero 4 4096 0x1000 0x2000).2.base_pa %
          (Allocator.order_to_pages 1 * 4096) = 0 →
       (Allocator.alloc_pages 4 4096
           (Allocator.buddy_init_from_zero 4 4096 0x1000 0x2000).2 1).1 %
         (Allocator.order_to_pages 1 * 4096) = 0)) :=
  ⟨by decide,
   c5_alloc_pages_aligned_rel 4 4096
     (Allocator.buddy_init_from_zero 4 4096 0x1000 0x2000).2 1 (by decide)⟩

/-! ## Page-table geometry (`mm_paging.hpp`) and CPU feature negotiation (`mm_paging.cpp`) -/

namespace Paging

/-- `index_stride()` : `granule_shift() - 3`. -/
def index_stride (pageShift : Nat) : Nat := pageShift - 3

/-- `entries_per_table()` : `1 << index_stride()`. -/
def entries_per_table (pageShift : Nat) : Nat := 1 <<< index_stride pageShift

/-- `levels_for_bits(addr_bits)` : `(addr_bits - 4) / index_stride()`. -/
def levels_for_bits (pageShift addr_bits : Nat) : Nat :=
  (addr_bits - 4) / index_stride pageShift

/-- `root_hw_level_for_bits(addr_bits)` : `4 - levels_for_bits(addr_bits)`. -/
def root_hw_level_for_bits (pageShift addr_bits : Nat) : Nat :=
  4 - levels_for_bits pageShift addr_bits

/-- `hw_level_shift(hw_level)` : `index_stride() * (4 - hw_level) + 3`. -/
def hw_level_shift (pageShift hw_level : Nat) : Nat :=
  index_stride pageShift * (4 - hw_level) + 3

/-- `level_shift_for_bits(addr_bits, level)`. -/
def level_shift_for_bits (pageShift addr_bits level : Nat) : Nat :=
  hw_level_shift pageShift (root_hw_level_for_bits pageShift addr_bits + level)

/-- `level_size_for_bits(addr_bits, level)` : `1 << level_shift`. -/
def level_size_for_bits (pageShift addr_bits level : Nat) : Nat :=
  1 <<< level_shift_for_bits pageShift addr_bits level

end Paging

namespace Cpu

/-- `struct cpu_state` (cpu.hpp): the shared feature-intersection record. -/
structure CpuState where
  pa_bits : Nat
  ipa_bits : Nat
  feat_vhe : Bool
  mair_el2 : Nat
  tcr_el2 : Nat
  vtcr_el2 : Nat
deriving DecidableEq, Repr

/-- The zero-initialized shared `cpu_state` (static storage). -/
def zero_state : CpuState := ⟨0, 0, false, 0, 0, 0⟩

/-- The hardware register values one CPU reads during `init_paging()`:
CurrentEL, granule support at both stages (`gran4_s1/s2_supported`),
ID_AA64MMFR1_EL1.VH, ID_AA64MMFR2_EL1.ST and the `parange_bits()` result
(one of 32/36/40/42/44/48). -/
structure CpuInputs where
  el : Nat
  gran_ok : Bool
  vh : Bool
  st : Bool
  parange : Nat
deriving DecidableEq, Repr

/-- `ps_for_bits(bits)` (mm_paging.cpp): TCR_EL2.IPS / VTCR_EL2.PS code. -/
def ps_for_bits (bits : Nat) : Nat :=
  if bits ≤ 32 then 0b000
  else if bits ≤ 36 then 0b001
  else if bits ≤ 40 then 0b010
  else if bits ≤ 42 then 0b011
  else if bits ≤ 44 then 0b100
  else 0b101

/-- `make_mair_el2()` : Attr0 = Normal WBWA (0xFF), Attr1 = Device nGnRnE
(0x00). -/
def make_mair_el2 : Nat := (0xff <<< 0) ||| (0x00 <<< 8)

/-- `make_tcr_el2(pa_bits, va_bits)` for the 4 KiB granule build.
Modelled from the spec: the field encoders come from the autogenerated
`regs.hpp`, which is not under src/; the VHE-layout TCR_EL2 field offsets
used here are the architectural ones the spec describes (T0SZ/T1SZ =
64 - va_bits, IRGN/ORGN = WBWA, SH = inner-shareable, TG0/TG1 = 4 KiB,
IPS = encoded PA bits). -/
def make_tcr_el2 (pa_bits va_bits : Nat) : Nat :=
  let tcr := 0
  let tcr := tcr ||| (((64 - va_bits) &&& 0x3f) <<< 0)
  let tcr := tcr ||| (1 <<< 8) ||| (1 <<< 10)
  let tcr := tcr ||| (3 <<< 12)
  let tcr := tcr ||| (0 <<< 14)
  let tcr := tcr ||| (((64 - va_bits) &&& 0x3f) <<< 16)
  let tcr := tcr ||| (1 <<< 24) ||| (1 <<< 26)
  let tcr := tcr ||| (3 <<< 28)
  let tcr := tcr ||| (2 <<< 30)
  tcr ||| (ps_for_bits pa_bits <<< 32)

/-- `vtcr_sl0(ipa_bits)` for the 4 KiB granule: SL0 by the stage-2 root
hardware level; root level 3 needs FEAT_TTST (`ID_AA64MMFR2_EL1.ST`);
anything else panics (`none`). -/
def vtcr_sl0 (st : Bool) (ipa_bits : Nat) : Option Nat :=
  match Paging.root_hw_level_for_bits 12 ipa_bits with
  | 0 => some 0b10
  | 1 => some 0b01
  | 2 => some 0b00
  | 3 => if st then some 0b11 else none
  | _ => none

/-- `make_vtcr_el2(pa_bits, ipa_bits)` for the 4 KiB granule build; `none`
models the `vtcr_sl0` panic.  Modelled from the spec for the same reason as
`make_tcr_el2` (field offsets of the autogenerated `regs.hpp`). -/
def make_vtcr_el2 (st : Bool) (pa_bits ipa_bits : Nat) : Option Nat :=
  (vtcr_sl0 st ipa_bits).map fun sl0 =>
    let vtcr := 0
    let vtcr := vtcr ||| (((64 - ipa_bits) &&& 0x3f) <<< 0)
    let vtcr := vtcr ||| (1 <<< 8) ||| (1 <<< 10)
    let vtcr := vtcr ||| (3 <<< 12)
    let vtcr := vtcr ||| (0 <<< 14)
    let vtcr := vtcr ||| (sl0 <<< 6)
    vtcr ||| (ps_for_bits pa_bits <<< 16)

/-- `init_paging()` (mm_paging.cpp), run by one CPU against the shared
state `s`; `none` models a panic (wrong EL, unsupported granule, missing
VHE, or no valid SL0). -/
def init_paging (va_bits : Nat) (inp : CpuInputs) (s : CpuState) :
    Option CpuState :=
  if inp.el ≠ 2 then none
  else if ¬ inp.gran_ok then none
  else if ¬ inp.vh then none
  else
    let pa_bits := inp.parange
    let ipa_bits := if va_bits < pa_bits then va_bits else pa_bits
    if s.pa_bits = 0 then
      (make_vtcr_el2 inp.st pa_bits ipa_bits).map fun vtcr =>
        { pa_bits := pa_bits, ipa_bits := ipa_bits, feat_vhe := true
          mair_el2 := make_mair_el2, tcr_el2 := make_tcr_el2 pa_bits va_bits
          vtcr_el2 := vtcr }
    else if pa_bits < s.pa_bits then
      let s := { s with pa_bits := pa_bits }
      let s :=
        if ipa_bits < s.ipa_bits then { s with ipa_bits := ipa_bits } else s
      (make_vtcr_el2 inp.st pa_bits ipa_bits).map fun vtcr =>
        { s with tcr_el2 := make_tcr_el2 pa_bits va_bits, vtcr_el2 := vtcr }
    else some s

/-- A serialized sequence of `init_paging()` executions by different CPUs,
starting from shared state `s`. -/
def run_init_paging (va_bits : Nat) : List CpuInputs → CpuState →
    Option CpuState
  | [], s => some s
  | inp :: rest, s => (init_paging va_bits inp s).bind (run_init_paging va_bits rest)

/-- The running minimum of the `pa_bits` computed by each CPU. -/
def min_parange (x : Nat) (xs : List CpuInputs) : Nat :=
  xs.foldl (fun acc inp => min acc inp.parange) x

end Cpu

theorem c4_step (va_bits : Nat) (st0 : Bool) (inp : Cpu.CpuInputs)
    (s s' : Cpu.CpuState) (P : Nat)
    (hp : 1 ≤ P)
    (hst : inp.st = st0)
    (hpa : s.pa_bits = P)
    (hipa : s.ipa_bits = min va_bits P)
    (hvhe : s.feat_vhe = true)
    (hmair : s.mair_el2 = Cpu.make_mair_el2)
    (htcr : s.tcr_el2 = Cpu.make_tcr_el2 P va_bits)
    (hvtcr : Cpu.make_vtcr_el2 st0 P (min va_bits P) = some s.vtcr_el2)
    (hrun : Cpu.init_paging va_bits inp s = some s') :
    s'.pa_bits = min P inp.parange ∧
    s'.ipa_bits = min va_bits (min P inp.parange) ∧
    s'.feat_vhe = true ∧
    s'.mair_el2 = Cpu.make_mair_el2 ∧
    s'.tcr_el2 = Cpu.make_tcr_el2 (min P inp.parange) va_bits ∧
    Cpu.make_vtcr_el2 st0 (min P inp.parange)
      (min va_bits (min P inp.parange)) = some s'.vtcr_el2 := by
  have hite : (if va_bits < inp.parange then va_bits else inp.parange) =
      min va_bits inp.parange := by
    split <;> omega
  unfold Cpu.init_paging at hrun
  split at hrun
  · exact absurd hrun (by simp)
  · split at hrun
    · exact absurd hrun (by simp)
    · split at hrun
      · exact absurd hrun (by simp)
      · rw [hpa] at hrun
        simp only [hite, hst] at hrun
        rw [if_neg (by omega)] at hrun
        split at hrun
        · next hlt =>
          have hmin1 : min P inp.parange = inp.parange := by omega
          rcases Option.map_eq_some'.1 hrun with ⟨vtcr, hv, hs'⟩
          subst hs'
          rw [hmin1]
          refine ⟨?_, ?_, ?_, ?_, ?_, ?_⟩
          · split <;> rfl
          · split
            · rfl
            · next hnot =>
              dsimp only at hnot ⊢
              omega
          · split <;> exact hvhe
          · split <;> exact hmair
          · split <;> rfl
          · split <;> exact hv
        · next hge =>
          have heq : s' = s := by
            simpa using hrun.symm
          subst heq
          have hmin1 : min P inp.parange = P := by omega
          rw [hmin1]
          exact ⟨hpa, hipa, hvhe, hmair, htcr, hvtcr⟩


theorem c4_first (va_bits : Nat) (st0 : Bool) (inp : Cpu.CpuInputs)
    (s' : Cpu.CpuState) (hst : inp.st = st0)
    (hrun : Cpu.init_paging va_bits inp Cpu.zero_state = some s') :
    s'.pa_bits = inp.parange ∧
    s'.ipa_bits = min va_bits inp.parange ∧
    s'.feat_vhe = true ∧
    s'.mair_el2 = Cpu.make_mair_el2 ∧
    s'.tcr_el2 = Cpu.make_tcr_el2 inp.parange va_bits ∧
    Cpu.make_vtcr_el2 st0 inp.parange (min va_bits inp.parange) =
      some s'.vtcr_el2 := by
  have hite : (if va_bits < inp.parange then va_bits else inp.parange) =
      min va_bits inp.parange := by
    split <;> omega
  unfold Cpu.init_paging at hrun
  split at hrun
  · exact absurd hrun (by simp)
  · split at hrun
    · exact absurd hrun (by simp)
    · split at hrun
      · exact absurd hrun (by simp)
      · simp only [hite, hst] at hrun
        rw [if_pos (show Cpu.zero_state.pa_bits = 0 from rfl)] at hrun
        rcases Option.map_eq_some'.1 hrun with ⟨vtcr, hv, hs'⟩
        subst hs'
        exact ⟨rfl, rfl, rfl, rfl, rfl, hv⟩

theorem c4_run_inv (va_bits : Nat) (st0 : Bool) (inputs : List Cpu.CpuInputs) :
    ∀ (s s' : Cpu.CpuState) (P : Nat), 1 ≤ P →
    (∀ i ∈ inputs, 32 ≤ i.parange ∧ i.st = st0) →
    s.pa_bits = P →
    s.ipa_bits = min va_bits P →
    s.feat_vhe = true →
    s.mair_el2 = Cpu.make_mair_el2 →
    s.tcr_el2 = Cpu.make_tcr_el2 P va_bits →
    Cpu.make_vtcr_el2 st0 P (min va_bits P) = some s.vtcr_el2 →
    Cpu.run_init_paging va_bits inputs s = some s' →
    s'.pa_bits = Cpu.min_parange P inputs ∧
    s'.ipa_bits = min va_bits (Cpu.min_parange P inputs) ∧
    s'.feat_vhe = true ∧
    s'.mair_el2 = Cpu.make_mair_el2 ∧
    s'.tcr_el2 = Cpu.make_tcr_el2 (Cpu.min_parange P inputs) va_bits ∧
    Cpu.make_vtcr_el2 st0 (Cpu.min_parange P inputs)
      (min va_bits (Cpu.min_parange P inputs)) = some s'.vtcr_el2 := by
  induction inputs with
  | nil =>
    intro s s' P hp _ h1 h2 h3 h4 h5 h6 hrun
    have : s' = s := by
      simpa [Cpu.run_init_paging] using hrun.symm
    subst this
    exact ⟨h1, h2, h3, h4, h5, h6⟩
  | cons i rest ih =>
    intro s s' P hp hall h1 h2 h3 h4 h5 h6 hrun
    unfold Cpu.run_init_paging at hrun
    rcases Option.bind_eq_some.1 hrun with ⟨s1, hstep, hrest⟩
    have hi := hall i (by simp)
    have hinv := c4_step va_bits st0 i s s1 P hp hi.2 h1 h2 h3 h4 h5 h6 hstep
    have hmp : Cpu.min_parange P (i :: rest) =
        Cpu.min_parange (min P i.parange) rest := rfl
    rw [hmp]
    exact ih s1 s' (min P i.parange) (by omega)
      (fun j hj => hall j (by simp [hj])) hinv.1 hinv.2.1 hinv.2.2.1
      hinv.2.2.2.1 hinv.2.2.2.2.1 hinv.2.2.2.2.2 hrest

/-- C4: starting from the zero-initialized shared `cpu_state`, for every
serialized sequence of `init_paging()` executions (each CPU's hardware
reads given by its `CpuInputs`, all sharing the FEAT_TTST flag `st0`), the
shared state after the whole sequence is written in full by the first CPU
and holds: `pa_bits` = the minimum of the `pa_bits` computed by all CPUs
that have run so far (so it never increases), `ipa_bits` = the minimum of
the per-CPU `min(va_bits, pa_bits)` values (which equals
`min va_bits pa_bits`), `feat_vhe` confirmed, and MAIR/TCR/VTCR computed
from the current narrowed values (TCR/VTCR are recomputed whenever
`pa_bits` is narrowed).  Since the statement holds for every input list, it
holds for every prefix, i.e. after each execution. -/
theorem c4_init_paging_intersection (va_bits : Nat) (st0 : Bool)
    (inp0 : Cpu.CpuInputs) (rest : List Cpu.CpuInputs) (s : Cpu.CpuState)
    (hall : ∀ i ∈ inp0 :: rest, 32 ≤ i.parange ∧ i.st = st0)
    (hrun : Cpu.run_init_paging va_bits (inp0 :: rest) Cpu.zero_state =
      some s) :
    s.pa_bits = Cpu.min_parange inp0.parange rest ∧
    s.ipa_bits = min va_bits (Cpu.min_parange inp0.parange rest) ∧
    s.feat_vhe = true ∧
    s.mair_el2 = Cpu.make_mair_el2 ∧
    s.tcr_el2 = Cpu.make_tcr_el2 (Cpu.min_parange inp0.parange rest) va_bits ∧
    Cpu.make_vtcr_el2 st0 (Cpu.min_parange inp0.parange rest)
      (min va_bits (Cpu.min_parange inp0.parange rest)) = some s.vtcr_el2 := by
  unfold Cpu.run_init_paging at hrun
  rcases Option.bind_eq_some.1 hrun with ⟨s1, hstep, hrest⟩
  have h0 := hall inp0 (by simp)
  have hfirst := c4_first va_bits st0 inp0 s1 h0.2 hstep
  exact c4_run_inv va_bits st0 rest s1 s inp0.parange (by omega)
    (fun j hj => hall j (by simp [hj])) hfirst.1 hfirst.2.1 hfirst.2.2.1
    hfirst.2.2.2.1 hfirst.2.2.2.2.1 hfirst.2.2.2.2.2 hrest

/-- Witness for C4: two CPUs, the first with 48 PA bits, the second with
40; `va_bits = 39`.  The shared state ends at `pa_bits = 40`,
`ipa_bits = 39`, with TCR/VTCR recomputed for 40 PA bits. -/
theorem c4_init_paging_intersection_witness :
    ((∀ i ∈ [(⟨2, true, true, false, 48⟩ : Cpu.CpuInputs),
              ⟨2, true, true, false, 40⟩], 32 ≤ i.parange ∧ i.st = false) ∧
     Cpu.run_init_paging 39
        [⟨2, true, true, false, 48⟩, ⟨2, true, true, false, 40⟩]
        Cpu.zero_state =
      some ⟨40, 39, true, Cpu.make_mair_el2, Cpu.make_tcr_el2 40 39,
        (Cpu.make_vtcr_el2 false 40 39).getD 0⟩) ∧
    ((⟨40, 39, true, Cpu.make_mair_el2, Cpu.make_tcr_el2 40 39,
        (Cpu.make_vtcr_el2 false 40 39).getD 0⟩ : Cpu.CpuState).pa_bits =
        Cpu.min_parange 48 [⟨2, true, true, false, 40⟩] ∧
     (⟨40, 39, true, Cpu.make_mair_el2, Cpu.make_tcr_el2 40 39,
        (Cpu.make_vtcr_el2 false 40 39).getD 0⟩ : Cpu.CpuState).ipa_bits =
        min 39 (Cpu.min_parange 48 [⟨2, true, true, false, 40⟩]) ∧
     (⟨40, 39, true, Cpu.make_mair_el2, Cpu.make_tcr_el2 40 39,
        (Cpu.make_vtcr_el2 false 40 39).getD 0⟩ : Cpu.CpuState).feat_vhe =
        true ∧
     (⟨40, 39, true, Cpu.make_mair_el2, Cpu.make_tcr_el2 40 39,
        (Cpu.make_vtcr_el2 false 40 39).getD 0⟩ : Cpu.CpuState).mair_el2 =
        Cpu.make_mair_el2 ∧
     (⟨40, 39, true, Cpu.make_mair_el2, Cpu.make_tcr_el2 40 39,
        (Cpu.make_vtcr_el2 false 40 39).getD 0⟩ : Cpu.CpuState).tcr_el2 =
        Cpu.make_tcr_el2 (Cpu.min_parange 48 [⟨2, true, true, false, 40⟩]) 39 ∧
     Cpu.make_vtcr_el2 false (Cpu.min_parange 48 [⟨2, true, true, false, 40⟩])
        (min 39 (Cpu.min_parange 48 [⟨2, true, true, false, 40⟩])) =
      some (⟨40, 39, true, Cpu.make_mair_el2, Cpu.make_tcr_el2 40 39,
        (Cpu.make_vtcr_el2 false 40 39).getD 0⟩ : Cpu.CpuState).vtcr_el2) :=
  ⟨⟨by decide, by decide⟩,
   c4_init_paging_intersection 39 false ⟨2, true, true, false, 48⟩
     [⟨2, true, true, false, 40⟩] _ (by decide) (by decide)⟩

namespace Paging

/-! ## The page-table engine (`page_table<Stage, Allocator>`, mm_paging.hpp)

The engine is embedded as explicit state passing:

* `HwState` is the machine state the engine mutates: the translation-table
  memory (a map from a table page's physical address to its descriptors)
  and the injected order-0 page allocator, which `page_table` only uses
  through `alloc_pages(nothrow, 0)` / `free_pages(pa, 0)` and which is
  modelled as its list of free pages (allocation returns 0 when the list
  is empty, matching the non-throwing buddy interface).
* `PTObj` is the `page_table` object itself: the stored allocator pointer
  (only its null-ness matters) and `root_pa`.
* Every descriptor store, barrier and ranged TLB invalidation is recorded
  in a trace of `Event`s.  A ranged invalidation
  (`invalidate_va_range`/`invalidate_ipa_range`, which internally brackets
  its per-page TLBI loop with `dsb(ishst)` ... `dsb(ish); isb`) is one
  `tlbi` event.
* All loops are structural recursions; `for` loops over table entries
  recurse on the remaining entry count, recursive tree walks
  (`free_subtree`, `protect_subtree`) recurse on a depth bound that is
  always sufficient because a table descriptor at `level` requires
  `level + 1 < levels()` (`entry_is_table`).
-/

/-- Engine configuration: stage, compile-time granule shift, the stage's
input-address width (`va_bits` for ST_1, `cpu_state.ipa_bits` for ST_2),
the negotiated `cpu_state.pa_bits`, and whether the MMU is on
(`va_layout_enabled`). -/
structure Cfg where
  stg : stage
  pageShift : Nat
  iaBits : Nat
  paBits : Nat
  mmuOn : Bool
deriving DecidableEq, Repr

def Cfg.levels (c : Cfg) : Nat := levels_for_bits c.pageShift c.iaBits

def Cfg.entries (c : Cfg) : Nat := entries_per_table c.pageShift

def Cfg.level_shift (c : Cfg) (level : Nat) : Nat :=
  level_shift_for_bits c.pageShift c.iaBits level

def Cfg.level_size (c : Cfg) (level : Nat) : Nat :=
  level_size_for_bits c.pageShift c.iaBits level

def Cfg.granule (c : Cfg) : Nat := 1 <<< c.pageShift

/-- Stage-specific input address (`addr_for<Stage>`): a VA plus ASID for
stage-1, an IPA for stage-2 (the ASID field is then unused). -/
structure AddrIn where
  addr : Nat
  asid : Nat
deriving DecidableEq, Repr

/-- PTE update kinds (`page_table::kind`). -/
inductive wkind
  | INSTALL
  | REMOVE
  | UPDATE
deriving DecidableEq, Repr

/-- Observable events: descriptor stores (with old and new slot contents),
barriers, and ranged TLB invalidations. -/
inductive Event
  | store (tablePa idx old new : Nat)
  | dsbIshst
  | dsbIsh
  | isb
  | dmbIshst
  | tlbi (addr size asid : Nat)
deriving DecidableEq, Repr

/-- Machine state mutated by the engine: translation-table memory and the
injected page allocator's free list. -/
structure HwState where
  mem : List (Nat × List Nat)
  freePages : List Nat
deriving DecidableEq, Repr

/-- The `page_table` object: stored allocator pointer (null-ness) and
`root_pa`. -/
structure PTObj where
  hasAllocator : Bool
  rootPa : Nat
deriving DecidableEq, Repr

/-- Contents of the table page at `pa` (empty when never written). -/
def memReadTable (m : List (Nat × List Nat)) (pa : Nat) : List Nat :=
  match m.lookup pa with
  | some t => t
  | none => []

/-- Descriptor at `(pa, idx)`; unwritten memory reads as 0 (FAULT). -/
def memRead (hw : HwState) (pa idx : Nat) : Nat :=
  (memReadTable hw.mem pa).getD idx 0

/-- Write a single descriptor slot (padding the table with FAULT entries
so the write always lands, like real memory). -/
def tableSet (t : List Nat) (idx v : Nat) : List Nat :=
  (t ++ List.replicate (idx + 1 - t.length) 0).set idx v

def memWriteSlot (hw : HwState) (pa idx v : Nat) : HwState :=
  { hw with mem := (pa, tableSet (memReadTable hw.mem pa) idx v) :: hw.mem }

/-- Install a whole table page (used for freshly allocated tables). -/
def memWriteTable (hw : HwState) (pa : Nat) (t : List Nat) : HwState :=
  { hw with mem := (pa, t) :: hw.mem }

/-- The ASID an invalidation is keyed by (`invalidate_range`): the input
address's ASID for stage-1, none (0) for stage-2. -/
def tlbi_asid (c : Cfg) (a : AddrIn) : Nat :=
  match c.stg with
  | .ST_1 => a.asid
  | .ST_2 => 0

/-- `entry_is_table(level, pte)`. -/
def entry_is_table (c : Cfg) (level : Nat) (pte : Nat) : Bool :=
  pte_is_table_or_page pte && decide (level + 1 < c.levels)

/-- `entry_is_block(pte)`. -/
def entry_is_block (pte : Nat) : Bool := pte_is_block pte

/-- `entry_is_valid(pte)`. -/
def entry_is_valid (pte : Nat) : Bool := ! pte_is_fault pte

/-- `table_index_at_level(a, at_level)`. -/
def table_index_at_level (c : Cfg) (a : AddrIn) (level : Nat) : Nat :=
  (a.addr >>> c.level_shift level) &&& (c.entries - 1)

/-- `addr_at_level(a, at_level)` : align the address down, keep the ASID. -/
def addr_at_level (c : Cfg) (a : AddrIn) (level : Nat) : AddrIn :=
  { a with addr := Mm.align_down a.addr (c.level_size level) }

/-- `addr_suitable_for_level(a, pa, level)`. -/
def addr_suitable_for_level (c : Cfg) (a : AddrIn) (pa level : Nat) : Bool :=
  (a.addr ||| pa) &&& (c.level_size level - 1) == 0

/-- The `for (level = 0; level < levels(); level++)` search of
`choose_leaf_level`; recursion on the remaining level count. -/
def choose_leaf_go (c : Cfg) (a : AddrIn) (pa size : Nat) :
    Nat → Nat → Nat
  | 0, _ => c.levels - 1
  | fuel + 1, level =>
    if level < c.levels then
      if size ≥ c.level_size level ∧ addr_suitable_for_level c a pa level then
        level
      else choose_leaf_go c a pa size fuel (level + 1)
    else c.levels - 1

/-- `choose_leaf_level(a, pa, size)`. -/
def choose_leaf_level (c : Cfg) (a : AddrIn) (pa size : Nat) : Nat :=
  choose_leaf_go c a pa size c.levels 0

/-- `entry_at_level(pa, p, at_level)` : block above the last level, page at
the last level. -/
def entry_at_level (c : Cfg) (pa p level : Nat) : Nat :=
  let device := (p &&& Mm.Prot.DEVICE) ≠ 0
  if level + 1 < c.levels then
    make_leaf_block c.stg c.paBits c.pageShift pa p device
  else
    make_leaf_page c.stg c.paBits c.pageShift pa p device

/-- `write_pte_and_sync(k, a, size, slot, value)` : break-before-make for
REMOVE/UPDATE when the MMU is on; plain store when the MMU is off. -/
def write_pte_and_sync (c : Cfg) (k : wkind) (a : AddrIn) (size : Nat)
    (tablePa idx value : Nat) (hw : HwState) : HwState × List Event :=
  let old := memRead hw tablePa idx
  if !c.mmuOn then
    (memWriteSlot hw tablePa idx value, [.store tablePa idx old value])
  else if k = wkind.UPDATE ∨ k = wkind.REMOVE then
    let hw1 := memWriteSlot hw tablePa idx PTE_TYPE_FAULT
    let old1 := memRead hw1 tablePa idx
    let hw2 := memWriteSlot hw1 tablePa idx value
    (hw2,
      [.store tablePa idx old PTE_TYPE_FAULT, .dsbIshst,
       .tlbi a.addr size (tlbi_asid c a), .dsbIsh, .isb,
       .store tablePa idx old1 value, .dsbIshst,
       .tlbi a.addr size (tlbi_asid c a), .dsbIsh, .isb])
  else
    (memWriteSlot hw tablePa idx value,
      [.store tablePa idx old value, .dsbIshst,
       .tlbi a.addr size (tlbi_asid c a), .dsbIsh, .isb])

/-- The store events of the PTE-zeroing loop in `alloc_single_pt`. -/
def table_init_events (hw : HwState) (pa n : Nat) : List Event :=
  (List.range n).map fun i => .store pa i (memRead hw pa i) PTE_TYPE_FAULT

/-- `alloc_single_pt()` : allocate one page, zero every descriptor to
FAULT, publish with `dmb(ishst)`.  Returns 0 (and no writes) on
allocation failure. -/
def alloc_single_pt (c : Cfg) (hw : HwState) : Nat × HwState × List Event :=
  match hw.freePages with
  | [] => (0, hw, [])
  | pa :: rest =>
    let hw1 : HwState := { hw with freePages := rest }
    if pa = 0 then (0, hw1, [])
    else
      (pa, memWriteTable hw1 pa (List.replicate c.entries PTE_TYPE_FAULT),
        table_init_events hw1 pa c.entries ++ [.dmbIshst])

/-- `alloc_and_link_table(entry, child)`. -/
def alloc_and_link_table (c : Cfg) (tablePa idx : Nat) (hw : HwState) :
    error_nr × Nat × HwState × List Event :=
  if ¬ (pte_is_fault (memRead hw tablePa idx) = true) then (.invalid, 0, hw, [])
  else
    match alloc_single_pt c hw with
    | (0, hw1, ev) => (.nomem, 0, hw1, ev)
    | (pa, hw1, ev) =>
      let old := memRead hw1 tablePa idx
      (.ok, pa,
        memWriteSlot hw1 tablePa idx (make_table c.paBits c.pageShift pa),
        ev ++ [.store tablePa idx old (make_table c.paBits c.pageShift pa)])

/-- The per-entry population loop of `split_block`: entry `i` gets a leaf
covering `pte_pa + i * level_size(level + 1)` with the original block's
attribute bits. -/
def populate_go (c : Cfg) (newPa ptePa pteAttr level : Nat) :
    Nat → Nat → HwState → HwState × List Event
  | 0, _, hw => (hw, [])
  | n + 1, i, hw =>
    let sub_sz := c.level_size (level + 1)
    let next := add64 ptePa (sub_sz * i)
    let leaf :=
      if level + 2 < c.levels then
        make_leaf_block_attr c.paBits c.pageShift next pteAttr
      else
        make_leaf_page_attr c.paBits c.pageShift next pteAttr
    let old := memRead hw newPa i
    let hw1 := memWriteSlot hw newPa i leaf
    let r := populate_go c newPa ptePa pteAttr level n (i + 1) hw1
    (r.1, .store newPa i old leaf :: r.2)

/-- `split_block(a, entry, level)` : replace a block descriptor with a
table of finer leaves that preserve the original attributes, via
break-before-make. -/
def split_block (c : Cfg) (a : AddrIn) (tablePa idx level : Nat)
    (hw : HwState) : error_nr × HwState × List Event :=
  let entry := memRead hw tablePa idx
  if ¬ (entry_is_block entry = true) then (.ok, hw, [])
  else
    let ls := c.level_size level
    if ¬ (Mm.is_align a.addr ls = true) then (.invalid, hw, [])
    else
      match alloc_single_pt c hw with
      | (0, hw1, ev) => (.nomem, hw1, ev)
      | (pa, hw1, ev) =>
        let pte_pa := pte_to_phys c.paBits c.pageShift entry
        let pte_attr := entry &&& pte_attr_field_mask c.paBits c.pageShift
        let r2 := populate_go c pa pte_pa pte_attr level c.entries 0 hw1
        let r3 := write_pte_and_sync c .UPDATE a ls tablePa idx
          (make_table c.paBits c.pageShift pa) r2.1
        (.ok, r3.1, ev ++ r2.2 ++ [.dmbIshst] ++ r3.2)

/-- Result of a table walk: either an early return with an error code, or
the table reached at the target level. -/
inductive WalkRes
  | done (e : error_nr)
  | leaf (tablePa : Nat)
deriving DecidableEq, Repr

/-- The walk loop of `map_one` (root to the parent of `leaf_level`);
the first `Nat` is the number of levels still to descend. -/
def map_walk (c : Cfg) (a : AddrIn) :
    Nat → Nat → Nat → HwState → WalkRes × HwState × List Event
  | 0, _, tpa, hw => (.leaf tpa, hw, [])
  | n + 1, level, tpa, hw =>
    let idx := table_index_at_level c a level
    let entry := memRead hw tpa idx
    if entry_is_valid entry = true then
      if ¬ (entry_is_table c level entry = true) then (.done .invalid, hw, [])
      else
        map_walk c a n (level + 1) (pte_to_phys c.paBits c.pageShift entry) hw
    else
      match alloc_and_link_table c tpa idx hw with
      | (.ok, child, hw1, ev) =>
        let r := map_walk c a n (level + 1) child hw1
        (r.1, r.2.1, ev ++ r.2.2)
      | (e, _, hw1, ev) => (.done e, hw1, ev)

/-- `map_one(a, pa, p, leaf_level)`. -/
def map_one (c : Cfg) (root : Nat) (a : AddrIn) (pa p leaf : Nat)
    (hw : HwState) : error_nr × HwState × List Event :=
  match map_walk c a leaf 0 root hw with
  | (.done e, hw1, ev) => (e, hw1, ev)
  | (.leaf tpa, hw1, ev) =>
    let idx := table_index_at_level c a leaf
    if entry_is_valid (memRead hw1 tpa idx) = true then (.invalid, hw1, ev)
    else
      let pte := entry_at_level c pa p leaf
      let r := write_pte_and_sync c .INSTALL (addr_at_level c a leaf)
        (c.level_size leaf) tpa idx pte hw1
      (.ok, r.1, ev ++ r.2)

/-- The chunk loop of `map_range`; the first `Nat` is iteration fuel (each
iteration maps at least one granule, so `size / granule + 1` suffices). -/
def map_range_go (c : Cfg) (root : Nat) :
    Nat → AddrIn → Nat → Nat → Nat → HwState → error_nr × HwState × List Event
  | 0, _, _, _, _, hw => (.ok, hw, [])
  | fuel + 1, a, pa, size, p, hw =>
    if size = 0 then (.ok, hw, [])
    else
      let leaf := choose_leaf_level c a pa size
      let map_sz := c.level_size leaf
      match map_one c root a pa p leaf hw with
      | (.ok, hw1, ev) =>
        let r := map_range_go c root fuel ⟨add64 a.addr map_sz, a.asid⟩
          (add64 pa map_sz) (if size > map_sz then size - map_sz else 0) p hw1
        (r.1, r.2.1, ev ++ r.2.2)
      | (e, hw1, ev) => (e, hw1, ev)

/-- `map_range(a, pa, size, p)`. -/
def map_range (c : Cfg) (root : Nat) (a : AddrIn) (pa size p : Nat)
    (hw : HwState) : error_nr × HwState × List Event :=
  if size = 0 then (.ok, hw, [])
  else if ¬ (Mm.is_align a.addr c.granule = true) ∨
      ¬ (Mm.is_align pa c.granule = true) then (.invalid, hw, [])
  else if add64 a.addr size < a.addr ∨ add64 pa size < pa then
    (.overflow, hw, [])
  else map_range_go c root (size / c.granule + 1) a pa size p hw

/-- The walk loop of `unmap_one` (splitting blocks on the way); early
`ok` when an intermediate entry is FAULT or (defensively) not a table. -/
def unmap_walk (c : Cfg) (a : AddrIn) :
    Nat → Nat → Nat → HwState → WalkRes × HwState × List Event
  | 0, _, tpa, hw => (.leaf tpa, hw, [])
  | n + 1, level, tpa, hw =>
    let idx := table_index_at_level c a level
    if ¬ (entry_is_valid (memRead hw tpa idx) = true) then (.done .ok, hw, [])
    else
      match split_block c (addr_at_level c a level) tpa idx level hw with
      | (.ok, hw1, ev1) =>
        let entry1 := memRead hw1 tpa idx
        if ¬ (entry_is_table c level entry1 = true) then (.done .ok, hw1, ev1)
        else
          let r := unmap_walk c a n (level + 1)
            (pte_to_phys c.paBits c.pageShift entry1) hw1
          (r.1, r.2.1, ev1 ++ r.2.2)
      | (e, hw1, ev1) => (.done e, hw1, ev1)

/-- One step of the entry loop in `free_subtree` / `protect_subtree`:
process entries `i, i+1, ...` (`n` of them), threading state and trace. -/
def iter_entries (f : HwState → Nat → HwState × List Event) :
    Nat → Nat → HwState → HwState × List Event
  | 0, _, hw => (hw, [])
  | n + 1, i, hw =>
    let r1 := f hw i
    let r2 := iter_entries f n (i + 1) r1.1
    (r2.1, r1.2 ++ r2.2)

/-- `free_subtree(table_pa, level)` : clear every reachable entry to FAULT,
free child tables recursively, then return the table page to the
allocator.  The first `Nat` bounds the recursion depth; `levels() - level`
always suffices because a table descriptor needs `level + 1 < levels()`
(the depth-0 case is then unreachable and just frees the page). -/
def free_subtree (c : Cfg) : Nat → Nat → Nat → HwState → HwState × List Event
  | 0, tablePa, _, hw => ({ hw with freePages := tablePa :: hw.freePages }, [])
  | fuel + 1, tablePa, level, hw =>
    let r := iter_entries
      (fun hw i =>
        let entry := memRead hw tablePa i
        if entry_is_valid entry = true then
          let r1 :=
            if entry_is_table c level entry = true then
              free_subtree c fuel (pte_to_phys c.paBits c.pageShift entry)
                (level + 1) hw
            else (hw, [])
          let old := memRead r1.1 tablePa i
          (memWriteSlot r1.1 tablePa i PTE_TYPE_FAULT,
            r1.2 ++ [.store tablePa i old PTE_TYPE_FAULT])
        else (hw, []))
      c.entries 0 hw
    ({ r.1 with freePages := tablePa :: r.1.freePages }, r.2)

/-- `unmap_one(a, leaf_level)`. -/
def unmap_one (c : Cfg) (root : Nat) (a : AddrIn) (leaf : Nat)
    (hw : HwState) : error_nr × HwState × List Event :=
  match unmap_walk c a leaf 0 root hw with
  | (.done e, hw1, ev) => (e, hw1, ev)
  | (.leaf tpa, hw1, ev) =>
    let idx := table_index_at_level c a leaf
    let entry := memRead hw1 tpa idx
    if ¬ (entry_is_valid entry = true) then (.ok, hw1, ev)
    else if entry_is_table c leaf entry = true then
      let child := pte_to_phys c.paBits c.pageShift entry
      let r2 := write_pte_and_sync c .REMOVE (addr_at_level c a leaf)
        (c.level_size leaf) tpa idx PTE_TYPE_FAULT hw1
      let r3 := free_subtree c (c.levels - (leaf + 1)) child (leaf + 1) r2.1
      (.ok, r3.1, ev ++ r2.2 ++ r3.2)
    else
      let r2 := write_pte_and_sync c .REMOVE (addr_at_level c a leaf)
        (c.level_size leaf) tpa idx PTE_TYPE_FAULT hw1
      (.ok, r2.1, ev ++ r2.2)

/-- `unmap_range(a, size)`. -/
def unmap_range_go (c : Cfg) (root : Nat) :
    Nat → AddrIn → Nat → HwState → error_nr × HwState × List Event
  | 0, _, _, hw => (.ok, hw, [])
  | fuel + 1, a, size, hw =>
    if size = 0 then (.ok, hw, [])
    else
      let leaf := c.levels - 1
      let chunk := c.level_size leaf
      match unmap_one c root a leaf hw with
      | (.ok, hw1, ev) =>
        let r := unmap_range_go c root fuel ⟨add64 a.addr chunk, a.asid⟩
          (if size > chunk then size - chunk else 0) hw1
        (r.1, r.2.1, ev ++ r.2.2)
      | (e, hw1, ev) => (e, hw1, ev)

def unmap_range (c : Cfg) (root : Nat) (a : AddrIn) (size : Nat)
    (hw : HwState) : error_nr × HwState × List Event :=
  if size = 0 then (.ok, hw, [])
  else if ¬ (Mm.is_align a.addr c.granule = true) then (.invalid, hw, [])
  else if add64 a.addr size < a.addr then (.overflow, hw, [])
  else unmap_range_go c root (size / c.granule + 1) a size hw

/-- `protect_subtree(a, table_pa, level, p)` : update the attributes of
every reachable leaf, preserving the mapped physical address; same depth
bound as `free_subtree`. -/
def protect_subtree (c : Cfg) :
    Nat → AddrIn → Nat → Nat → Nat → HwState → HwState × List Event
  | 0, _, _, _, _, hw => (hw, [])
  | fuel + 1, a, tablePa, level, p, hw =>
    let stride := c.level_size level
    iter_entries
      (fun hw i =>
        let entry := memRead hw tablePa i
        if entry_is_valid entry = true then
          let at_ : AddrIn := ⟨add64 a.addr (stride * i), a.asid⟩
          let pa := pte_to_phys c.paBits c.pageShift entry
          if entry_is_table c level entry = true then
            protect_subtree c fuel at_ pa (level + 1) p hw
          else
            write_pte_and_sync c .UPDATE at_ stride tablePa i
              (entry_at_level c pa p level) hw
        else (hw, []))
      c.entries 0 hw

/-- The walk loop of `protect_one`: like `unmap_one`'s but an unmapped or
non-table intermediate entry is an error. -/
def protect_walk (c : Cfg) (a : AddrIn) :
    Nat → Nat → Nat → HwState → WalkRes × HwState × List Event
  | 0, _, tpa, hw => (.leaf tpa, hw, [])
  | n + 1, level, tpa, hw =>
    let idx := table_index_at_level c a level
    if ¬ (entry_is_valid (memRead hw tpa idx) = true) then
      (.done .invalid, hw, [])
    else
      match split_block c (addr_at_level c a level) tpa idx level hw with
      | (.ok, hw1, ev1) =>
        let entry1 := memRead hw1 tpa idx
        if ¬ (entry_is_table c level entry1 = true) then
          (.done .invalid, hw1, ev1)
        else
          let r := protect_walk c a n (level + 1)
            (pte_to_phys c.paBits c.pageShift entry1) hw1
          (r.1, r.2.1, ev1 ++ r.2.2)
      | (e, hw1, ev1) => (.done e, hw1, ev1)

/-- `protect_one(a, p, leaf_level)`. -/
def protect_one (c : Cfg) (root : Nat) (a : AddrIn) (p leaf : Nat)
    (hw : HwState) : error_nr × HwState × List Event :=
  match protect_walk c a leaf 0 root hw with
  | (.done e, hw1, ev) => (e, hw1, ev)
  | (.leaf tpa, hw1, ev) =>
    let idx := table_index_at_level c a leaf
    let entry := memRead hw1 tpa idx
    if ¬ (entry_is_valid entry = true) then (.invalid, hw1, ev)
    else
      let pa := pte_to_phys c.paBits c.pageShift entry
      if entry_is_table c leaf entry = true then
        let r2 := protect_subtree c (c.levels - (leaf + 1))
          (addr_at_level c a leaf) pa (leaf + 1) p hw1
        (.ok, r2.1, ev ++ r2.2)
      else
        let r2 := write_pte_and_sync c .UPDATE (addr_at_level c a leaf)
          (c.level_size leaf) tpa idx (entry_at_level c pa p leaf) hw1
        (.ok, r2.1, ev ++ r2.2)

/-- `protect_range(a, size, p)`. -/
def protect_range_go (c : Cfg) (root : Nat) :
    Nat → AddrIn → Nat → Nat → HwState → error_nr × HwState × List Event
  | 0, _, _, _, hw => (.ok, hw, [])
  | fuel + 1, a, size, p, hw =>
    if size = 0 then (.ok, hw, [])
    else
      let leaf := c.levels - 1
      let chunk := c.level_size leaf
      match protect_one c root a p leaf hw with
      | (.ok, hw1, ev) =>
        let r := protect_range_go c root fuel ⟨add64 a.addr chunk, a.asid⟩
          (if size > chunk then size - chunk else 0) p hw1
        (r.1, r.2.1, ev ++ r.2.2)
      | (e, hw1, ev) => (e, hw1, ev)

def protect_range (c : Cfg) (root : Nat) (a : AddrIn) (size p : Nat)
    (hw : HwState) : error_nr × HwState × List Event :=
  if size = 0 then (.ok, hw, [])
  else if ¬ (Mm.is_align a.addr c.granule = true) then (.invalid, hw, [])
  else if add64 a.addr size < a.addr then (.overflow, hw, [])
  else protect_range_go c root (size / c.granule + 1) a size p hw

/-- `page_table::init(allocator)` : fails with `invalid` when an allocator
is already stored or the root is nonzero; otherwise stores the allocator
and allocates the root table. -/
def pt_init (c : Cfg) (pt : PTObj) (hw : HwState) :
    error_nr × PTObj × HwState × List Event :=
  if pt.hasAllocator = true ∨ pt.rootPa ≠ 0 then (.invalid, pt, hw, [])
  else
    let pt1 : PTObj := { pt with hasAllocator := true }
    match alloc_single_pt c hw with
    | (0, hw1, ev) => (.nomem, { pt1 with rootPa := 0 }, hw1, ev)
    | (pa, hw1, ev) => (.ok, { pt1 with rootPa := pa }, hw1, ev)

/-- `page_table::deinit()` : free every reachable table and reset the root
to 0; the stored allocator pointer is left untouched. -/
def pt_deinit (c : Cfg) (pt : PTObj) (hw : HwState) :
    PTObj × HwState × List Event :=
  if pt.rootPa ≠ 0 then
    let r := free_subtree c c.levels pt.rootPa 0 hw
    ({ pt with rootPa := 0 }, r.1, r.2)
  else (pt, hw, [])

/-- A page-table operation invoked by a client. -/
inductive PTOp
  | opInit
  | opDeinit
  | opMap (a : AddrIn) (pa size p : Nat)
  | opProtect (a : AddrIn) (size p : Nat)
  | opUnmap (a : AddrIn) (size : Nat)
deriving DecidableEq, Repr

/-- Execute one operation (result codes are not recorded; the engine state
and the event trace are). -/
def run_op (c : Cfg) (op : PTOp) (s : PTObj × HwState) :
    (PTObj × HwState) × List Event :=
  match op with
  | .opInit =>
    let r := pt_init c s.1 s.2
    ((r.2.1, r.2.2.1), r.2.2.2)
  | .opDeinit =>
    let r := pt_deinit c s.1 s.2
    ((r.1, r.2.1), r.2.2)
  | .opMap a pa size p =>
    let r := map_range c s.1.rootPa a pa size p s.2
    ((s.1, r.2.1), r.2.2)
  | .opProtect a size p =>
    let r := protect_range c s.1.rootPa a size p s.2
    ((s.1, r.2.1), r.2.2)
  | .opUnmap a size =>
    let r := unmap_range c s.1.rootPa a size s.2
    ((s.1, r.2.1), r.2.2)

/-- Execute a sequence of operations, concatenating the event traces. -/
def run_ops (c : Cfg) : List PTOp → (PTObj × HwState) →
    (PTObj × HwState) × List Event
  | [], s => (s, [])
  | op :: rest, s =>
    let r1 := run_op c op s
    let r2 := run_ops c rest r1.1
    (r2.1, r1.2 ++ r2.2)

end Paging


namespace Paging

theorem pt_init_ok_hasAllocator (c : Cfg) (pt : PTObj) (hw : HwState)
    (h : (pt_init c pt hw).1 = error_nr.ok) :
    (pt_init c pt hw).2.1.hasAllocator = true := by
  unfold pt_init at h ⊢
  split at h
  · exact absurd h (by simp)
  · next hg =>
    rw [if_neg hg]
    rcases halloc : alloc_single_pt c hw with ⟨pa, hw1, ev⟩
    simp only [halloc] at h ⊢
    cases pa with
    | zero => simp at h
    | succ q => rfl

theorem pt_init_invalid_of_hasAllocator (c : Cfg) (pt : PTObj) (hw : HwState)
    (h : pt.hasAllocator = true) :
    (pt_init c pt hw).1 = error_nr.invalid := by
  unfold pt_init
  rw [if_pos (Or.inl h)]

theorem pt_deinit_fields (c : Cfg) (pt : PTObj) (hw : HwState) :
    (pt_deinit c pt hw).1.rootPa = 0 ∧
    (pt_deinit c pt hw).1.hasAllocator = pt.hasAllocator := by
  unfold pt_deinit
  by_cases h : pt.rootPa ≠ 0
  · rw [if_pos h]
    exact ⟨rfl, rfl⟩
  · rw [if_neg h]
    refine ⟨?_, rfl⟩
    show pt.rootPa = 0
    omega

theorem run_op_keeps_hasAllocator (c : Cfg) (op : PTOp) (s : PTObj × HwState)
    (h : s.1.hasAllocator = true) :
    (run_op c op s).1.1.hasAllocator = true := by
  cases op with
  | opInit =>
    simp [run_op, pt_init, h]
  | opDeinit =>
    simp only [run_op, pt_deinit]
    split <;> exact h
  | opMap a pa size p => exact h
  | opProtect a size p => exact h
  | opUnmap a size => exact h

theorem run_ops_keeps_hasAllocator (c : Cfg) (ops : List PTOp) :
    ∀ s : PTObj × HwState, s.1.hasAllocator = true →
    (run_ops c ops s).1.1.hasAllocator = true := by
  induction ops with
  | nil => intro s h; exact h
  | cons op rest ih =>
    intro s h
    exact ih _ (run_op_keeps_hasAllocator c op s h)

end Paging

/-- C9: `deinit()` resets the root physical address to 0 but leaves the
stored allocator pointer set; consequently, once `init()` has succeeded on
a `page_table`, every later call to `init()` — after any sequence of
operations, including `deinit()` — returns the `invalid` error, so a
`page_table` object can be successfully initialized at most once. -/
theorem c9_init_at_most_once (c : Paging.Cfg) (pt : Paging.PTObj)
    (hw : Paging.HwState) (ops : List Paging.PTOp)
    (hinit : (Paging.pt_init c pt hw).1 = error_nr.ok) :
    (Paging.pt_deinit c
        (Paging.run_ops c ops
          ((Paging.pt_init c pt hw).2.1,
            (Paging.pt_init c pt hw).2.2.1)).1.1
        (Paging.run_ops c ops
          ((Paging.pt_init c pt hw).2.1,
            (Paging.pt_init c pt hw).2.2.1)).1.2).1.rootPa = 0 ∧
    (Paging.pt_deinit c
        (Paging.run_ops c ops
          ((Paging.pt_init c pt hw).2.1,
            (Paging.pt_init c pt hw).2.2.1)).1.1
        (Paging.run_ops c ops
          ((Paging.pt_init c pt hw).2.1,
            (Paging.pt_init c pt hw).2.2.1)).1.2).1.hasAllocator =
      (Paging.run_ops c ops
        ((Paging.pt_init c pt hw).2.1,
          (Paging.pt_init c pt hw).2.2.1)).1.1.hasAllocator ∧
    (Paging.pt_init c
        (Paging.run_ops c ops
          ((Paging.pt_init c pt hw).2.1,
            (Paging.pt_init c pt hw).2.2.1)).1.1
        (Paging.run_ops c ops
          ((Paging.pt_init c pt hw).2.1,
            (Paging.pt_init c pt hw).2.2.1)).1.2).1 = error_nr.invalid := by
  have hA := Paging.pt_init_ok_hasAllocator c pt hw hinit
  have hkeep := Paging.run_ops_keeps_hasAllocator c ops
    ((Paging.pt_init c pt hw).2.1, (Paging.pt_init c pt hw).2.2.1) hA
  refine ⟨(Paging.pt_deinit_fields c _ _).1, (Paging.pt_deinit_fields c _ _).2,
    Paging.pt_init_invalid_of_hasAllocator c _ _ hkeep⟩

/-- Witness for C9: a concrete stage-1 page table (4 KiB granule,
`va_bits = 39`, `pa_bits = 48`, MMU on), initialized from a 4-page
allocator, then deinitialized; the subsequent `init()` returns `invalid`. -/
theorem c9_init_at_most_once_witness :
    ((Paging.pt_init ⟨.ST_1, 12, 39, 48, true⟩ ⟨false, 0⟩
        ⟨[], [0x1000, 0x2000, 0x3000, 0x4000]⟩).1 = error_nr.ok) ∧
    ((Paging.pt_deinit ⟨.ST_1, 12, 39, 48, true⟩
        (Paging.run_ops ⟨.ST_1, 12, 39, 48, true⟩ [.opDeinit]
          ((Paging.pt_init ⟨.ST_1, 12, 39, 48, true⟩ ⟨false, 0⟩
              ⟨[], [0x1000, 0x2000, 0x3000, 0x4000]⟩).2.1,
            (Paging.pt_init ⟨.ST_1, 12, 39, 48, true⟩ ⟨false, 0⟩
              ⟨[], [0x1000, 0x2000, 0x3000, 0x4000]⟩).2.2.1)).1.1
        (Paging.run_ops ⟨.ST_1, 12, 39, 48, true⟩ [.opDeinit]
          ((Paging.pt_init ⟨.ST_1, 12, 39, 48, true⟩ ⟨false, 0⟩
              ⟨[], [0x1000, 0x2000, 0x3000, 0x4000]⟩).2.1,
            (Paging.pt_init ⟨.ST_1, 12, 39, 48, true⟩ ⟨false, 0⟩
              ⟨[], [0x1000, 0x2000, 0x3000, 0x4000]⟩).2.2.1)).1.2).1.rootPa = 0 ∧
     (Paging.pt_deinit ⟨.ST_1, 12, 39, 48, true⟩
        (Paging.run_ops ⟨.ST_1, 12, 39, 48, true⟩ [.opDeinit]
          ((Paging.pt_init ⟨.ST_1, 12, 39, 48, true⟩ ⟨false, 0⟩
              ⟨[], [0x1000, 0x2000, 0x3000, 0x4000]⟩).2.1,
            (Paging.pt_init ⟨.ST_1, 12, 39, 48, true⟩ ⟨false, 0⟩
              ⟨[], [0x1000, 0x2000, 0x3000, 0x4000]⟩).2.2.1)).1.1
        (Paging.run_ops ⟨.ST_1, 12, 39, 48, true⟩ [.opDeinit]
          ((Paging.pt_init ⟨.ST_1, 12, 39, 48, true⟩ ⟨false, 0⟩
              ⟨[], [0x1000, 0x2000, 0x3000, 0x4000]⟩).2.1,
            (Paging.pt_init ⟨.ST_1, 12, 39, 48, true⟩ ⟨false, 0⟩
              ⟨[], [0x1000, 0x2000, 0x3000, 0x4000]⟩).2.2.1)).1.2).1.hasAllocator =
      (Paging.run_ops ⟨.ST_1, 12, 39, 48, true⟩ [.opDeinit]
        ((Paging.pt_init ⟨.ST_1, 12, 39, 48, true⟩ ⟨false, 0⟩
            ⟨[], [0x1000, 0x2000, 0x3000, 0x4000]⟩).2.1,
          (Paging.pt_init ⟨.ST_1, 12, 39, 48, true⟩ ⟨false, 0⟩
            ⟨[], [0x1000, 0x2000, 0x3000, 0x4000]⟩).2.2.1)).1.1.hasAllocator ∧
     (Paging.pt_init ⟨.ST_1, 12, 39, 48, true⟩
        (Paging.run_ops ⟨.ST_1, 12, 39, 48, true⟩ [.opDeinit]
          ((Paging.pt_init ⟨.ST_1, 12, 39, 48, true⟩ ⟨false, 0⟩
              ⟨[], [0x1000, 0x2000, 0x3000, 0x4000]⟩).2.1,
            (Paging.pt_init ⟨.ST_1, 12, 39, 48, true⟩ ⟨false, 0⟩
              ⟨[], [0x1000, 0x2000, 0x3000, 0x4000]⟩).2.2.1)).1.1
        (Paging.run_ops ⟨.ST_1, 12, 39, 48, true⟩ [.opDeinit]
          ((Paging.pt_init ⟨.ST_1, 12, 39, 48, true⟩ ⟨false, 0⟩
              ⟨[], [0x1000, 0x2000, 0x3000, 0x4000]⟩).2.1,
            (Paging.pt_init ⟨.ST_1, 12, 39, 48, true⟩ ⟨false, 0⟩
              ⟨[], [0x1000, 0x2000, 0x3000, 0x4000]⟩).2.2.1)).1.2).1 =
      error_nr.invalid) :=
  ⟨by decide,
   c9_init_at_most_once ⟨.ST_1, 12, 39, 48, true⟩ ⟨false, 0⟩
     ⟨[], [0x1000, 0x2000, 0x3000, 0x4000]⟩ [.opDeinit] (by decide)⟩


namespace Paging

/-! ## C2: break-before-make over event traces

`store_bbm_ok` is the slot-level discipline the claim describes: a store
never replaces one valid descriptor directly with a different valid one.
The lemmas below show that every event trace the engine can emit with the
MMU on satisfies it, store by store.
-/

/-- A store event respects break-before-make: it does not overwrite a
valid descriptor directly with a different valid descriptor.  Barriers
and TLB invalidations are unconstrained. -/
def store_bbm_ok : Event → Bool
  | .store _ _ old new =>
      !(entry_is_valid old && entry_is_valid new && old != new)
  | _ => true

/-- Every store in the trace respects break-before-make. -/
def trace_bbm_ok (tr : List Event) : Prop :=
  ∀ e ∈ tr, store_bbm_ok e = true

lemma trace_bbm_ok_nil : trace_bbm_ok [] := by
  intro e he
  cases he

lemma trace_bbm_ok_append {t1 t2 : List Event} (h1 : trace_bbm_ok t1)
    (h2 : trace_bbm_ok t2) : trace_bbm_ok (t1 ++ t2) := by
  intro e he
  rcases List.mem_append.1 he with h | h
  · exact h1 e h
  · exact h2 e h

lemma trace_bbm_ok_cons {e : Event} {t : List Event}
    (h1 : store_bbm_ok e = true) (h2 : trace_bbm_ok t) :
    trace_bbm_ok (e :: t) := by
  intro x hx
  rcases List.mem_cons.1 hx with h | h
  · rw [h]; exact h1
  · exact h2 x h

lemma store_bbm_ok_of_old_fault {tp i old new : Nat}
    (h : pte_is_fault old = true) :
    store_bbm_ok (.store tp i old new) = true := by
  simp [store_bbm_ok, entry_is_valid, h]

lemma store_bbm_ok_of_new_fault {tp i old new : Nat}
    (h : pte_is_fault new = true) :
    store_bbm_ok (.store tp i old new) = true := by
  simp [store_bbm_ok, entry_is_valid, h]

lemma pte_is_fault_FAULT : pte_is_fault PTE_TYPE_FAULT = true := by decide

lemma fault_of_not_valid {e : Nat} (h : ¬ (entry_is_valid e = true)) :
    pte_is_fault e = true := by
  unfold entry_is_valid at h
  cases hf : pte_is_fault e
  · rw [hf] at h
    exact absurd rfl h
  · rfl

/-! Read-after-write facts about the table memory. -/

lemma getD_append_replicate (t : List Nat) (k j : Nat) :
    (t ++ List.replicate k (0 : Nat)).getD j 0 = t.getD j 0 := by
  unfold List.getD
  rw [List.get?_eq_getElem?, List.get?_eq_getElem?]
  rcases Nat.lt_or_ge j t.length with h | h
  · rw [List.getElem?_append_left h]
  · rw [List.getElem?_append_right h]
    rcases Nat.lt_or_ge (j - t.length) k with h2 | h2
    · simp [List.getElem?_replicate, h2,
        List.getElem?_eq_none (show t.length ≤ j by simpa using h)]
    · rw [List.getElem?_eq_none (by simpa using h2),
        List.getElem?_eq_none (by simpa using h)]

lemma getD_replicate_zero (n j : Nat) :
    (List.replicate n (0 : Nat)).getD j 0 = 0 := by
  unfold List.getD
  rw [List.get?_eq_getElem?]
  rcases Nat.lt_or_ge j n with h | h
  · simp [List.getElem?_replicate, h]
  · rw [List.getElem?_eq_none (by simpa using h)]
    rfl

lemma memReadTable_writeSlot_self (hw : HwState) (pa idx v : Nat) :
    memReadTable (memWriteSlot hw pa idx v).mem pa =
      tableSet (memReadTable hw.mem pa) idx v := by
  simp [memWriteSlot, memReadTable, List.lookup]

lemma memRead_writeSlot_self (hw : HwState) (pa idx v : Nat) :
    memRead (memWriteSlot hw pa idx v) pa idx = v := by
  rw [memRead, memReadTable_writeSlot_self]
  unfold tableSet List.getD
  have hlen : idx < ((memReadTable hw.mem pa) ++
      List.replicate (idx + 1 - (memReadTable hw.mem pa).length)
        (0 : Nat)).length := by
    rw [List.length_append, List.length_replicate]
    omega
  rw [List.get?_eq_getElem?, List.getElem?_set_self',
    List.getElem?_eq_getElem hlen]
  rfl

lemma memRead_writeSlot_other (hw : HwState) (pa idx v pa' j : Nat)
    (h : pa' ≠ pa ∨ j ≠ idx) :
    memRead (memWriteSlot hw pa idx v) pa' j = memRead hw pa' j := by
  by_cases hpa : pa' = pa
  · rcases h with h | h
    · exact absurd hpa h
    · subst hpa
      rw [memRead, memReadTable_writeSlot_self]
      unfold tableSet List.getD
      rw [List.get?_eq_getElem?, List.getElem?_set_ne (fun hc => h hc.symm)]
      rw [← List.get?_eq_getElem?]
      exact getD_append_replicate _ _ _
  · rw [memRead, memRead]
    have : memReadTable (memWriteSlot hw pa idx v).mem pa' =
        memReadTable hw.mem pa' := by
      simp [memWriteSlot, memReadTable, List.lookup,
        beq_eq_false_iff_ne.2 hpa]
    rw [this]

lemma memRead_writeTable_self (hw : HwState) (pa : Nat) (t : List Nat)
    (j : Nat) : memRead (memWriteTable hw pa t) pa j = t.getD j 0 := by
  simp [memRead, memWriteTable, memReadTable, List.lookup]

/-! Facts about `alloc_single_pt`: its trace, the freshness of the page it
returns, and how it affects reads. -/

lemma alloc_single_pt_trace (c : Cfg) (hw : HwState) :
    trace_bbm_ok (alloc_single_pt c hw).2.2 := by
  cases hfp : hw.freePages with
  | nil =>
    simp only [alloc_single_pt, hfp]
    exact trace_bbm_ok_nil
  | cons pa0 rest =>
    by_cases h0 : pa0 = 0
    · simp only [alloc_single_pt, hfp]
      rw [if_pos h0]
      exact trace_bbm_ok_nil
    · simp only [alloc_single_pt, hfp]
      rw [if_neg h0]
      intro e he
      rcases List.mem_append.1 he with h | h
      · rcases List.mem_map.1 h with ⟨i, _, rfl⟩
        exact store_bbm_ok_of_new_fault pte_is_fault_FAULT
      · rcases List.mem_singleton.1 h with rfl
        rfl

lemma alloc_single_pt_fresh (c : Cfg) (hw : HwState)
    (hne : (alloc_single_pt c hw).1 ≠ 0) (j : Nat) :
    pte_is_fault
      (memRead (alloc_single_pt c hw).2.1 (alloc_single_pt c hw).1 j) =
      true := by
  cases hfp : hw.freePages with
  | nil => simp [alloc_single_pt, hfp] at hne
  | cons pa0 rest =>
    by_cases h0 : pa0 = 0
    · simp [alloc_single_pt, hfp, h0] at hne
    · simp only [alloc_single_pt, hfp]
      rw [if_neg h0]
      dsimp only
      rw [memRead_writeTable_self]
      show pte_is_fault ((List.replicate c.entries (0 : Nat)).getD j 0) = true
      rw [getD_replicate_zero]
      decide

lemma alloc_single_pt_reads (c : Cfg) (hw : HwState) (tp j : Nat) :
    memRead (alloc_single_pt c hw).2.1 tp j = memRead hw tp j ∨
    memRead (alloc_single_pt c hw).2.1 tp j = 0 := by
  cases hfp : hw.freePages with
  | nil =>
    left
    simp only [alloc_single_pt, hfp]
  | cons pa0 rest =>
    by_cases h0 : pa0 = 0
    · left
      simp only [alloc_single_pt, hfp]
      rw [if_pos h0]
      rfl
    · simp only [alloc_single_pt, hfp]
      rw [if_neg h0]
      dsimp only
      by_cases htp : tp = pa0
      · right
        subst htp
        rw [memRead_writeTable_self]
        show (List.replicate c.entries (0 : Nat)).getD j 0 = 0
        exact getD_replicate_zero _ _
      · left
        rw [memRead, memRead]
        have : memReadTable (memWriteTable { hw with freePages := rest } pa0
            (List.replicate c.entries PTE_TYPE_FAULT)).mem tp =
            memReadTable hw.mem tp := by
          simp [memWriteTable, memReadTable, List.lookup,
            beq_eq_false_iff_ne.2 htp]
        rw [this]

lemma alloc_single_pt_fault_reads (c : Cfg) (hw : HwState) (tp j : Nat)
    (h : pte_is_fault (memRead hw tp j) = true) :
    pte_is_fault (memRead (alloc_single_pt c hw).2.1 tp j) = true := by
  rcases alloc_single_pt_reads c hw tp j with h1 | h1 <;> rw [h1]
  · exact h
  · decide

/-! Per-function trace lemmas, bottom up. -/

lemma write_pte_and_sync_trace (c : Cfg) (k : wkind) (a : AddrIn)
    (size tablePa idx value : Nat) (hw : HwState) (hm : c.mmuOn = true)
    (hold : k = wkind.INSTALL →
      pte_is_fault (memRead hw tablePa idx) = true) :
    trace_bbm_ok (write_pte_and_sync c k a size tablePa idx value hw).2 := by
  unfold write_pte_and_sync
  rw [if_neg (by simp [hm])]
  cases k with
  | INSTALL =>
    rw [if_neg (by decide)]
    exact trace_bbm_ok_cons (store_bbm_ok_of_old_fault (hold rfl))
      (trace_bbm_ok_cons rfl (trace_bbm_ok_cons rfl (trace_bbm_ok_cons rfl
        (trace_bbm_ok_cons rfl trace_bbm_ok_nil))))
  | REMOVE =>
    rw [if_pos (Or.inr rfl)]
    refine trace_bbm_ok_cons (store_bbm_ok_of_new_fault pte_is_fault_FAULT)
      (trace_bbm_ok_cons rfl (trace_bbm_ok_cons rfl (trace_bbm_ok_cons rfl
        (trace_bbm_ok_cons rfl (trace_bbm_ok_cons ?_ (trace_bbm_ok_cons rfl
        (trace_bbm_ok_cons rfl (trace_bbm_ok_cons rfl
        (trace_bbm_ok_cons rfl trace_bbm_ok_nil)))))))))
    apply store_bbm_ok_of_old_fault
    rw [memRead_writeSlot_self]
    decide
  | UPDATE =>
    rw [if_pos (Or.inl rfl)]
    refine trace_bbm_ok_cons (store_bbm_ok_of_new_fault pte_is_fault_FAULT)
      (trace_bbm_ok_cons rfl (trace_bbm_ok_cons rfl (trace_bbm_ok_cons rfl
        (trace_bbm_ok_cons rfl (trace_bbm_ok_cons ?_ (trace_bbm_ok_cons rfl
        (trace_bbm_ok_cons rfl (trace_bbm_ok_cons rfl
        (trace_bbm_ok_cons rfl trace_bbm_ok_nil)))))))))
    apply store_bbm_ok_of_old_fault
    rw [memRead_writeSlot_self]
    decide

lemma alloc_and_link_table_trace (c : Cfg) (tablePa idx : Nat)
    (hw : HwState) :
    trace_bbm_ok (alloc_and_link_table c tablePa idx hw).2.2.2 := by
  unfold alloc_and_link_table
  by_cases hf : pte_is_fault (memRead hw tablePa idx) = true
  · rw [if_neg (not_not_intro hf)]
    rcases halloc : alloc_single_pt c hw with ⟨pa, hw1, ev⟩
    have htr := alloc_single_pt_trace c hw
    rw [halloc] at htr
    cases pa with
    | zero => exact htr
    | succ n =>
      dsimp only
      refine trace_bbm_ok_append htr
        (trace_bbm_ok_cons ?_ trace_bbm_ok_nil)
      apply store_bbm_ok_of_old_fault
      have hfr := alloc_single_pt_fault_reads c hw tablePa idx hf
      rw [halloc] at hfr
      exact hfr
  · rw [if_pos hf]
    exact trace_bbm_ok_nil

lemma populate_go_trace (c : Cfg) (newPa ptePa pteAttr level : Nat) :
    ∀ (n i : Nat) (hw : HwState),
      (∀ j, i ≤ j → pte_is_fault (memRead hw newPa j) = true) →
      trace_bbm_ok (populate_go c newPa ptePa pteAttr level n i hw).2 := by
  intro n
  induction n with
  | zero =>
    intro i hw _
    exact trace_bbm_ok_nil
  | succ m ih =>
    intro i hw hfresh
    simp only [populate_go]
    refine trace_bbm_ok_cons ?_ ?_
    · exact store_bbm_ok_of_old_fault (hfresh i (Nat.le_refl i))
    · apply ih
      intro j hj
      rw [memRead_writeSlot_other _ _ _ _ _ _ (Or.inr (by omega))]
      exact hfresh j (by omega)

lemma split_block_trace (c : Cfg) (a : AddrIn) (tablePa idx level : Nat)
    (hw : HwState) (hm : c.mmuOn = true) :
    trace_bbm_ok (split_block c a tablePa idx level hw).2.2 := by
  unfold split_block
  by_cases hb : ¬ (entry_is_block (memRead hw tablePa idx) = true)
  · rw [if_pos hb]
    exact trace_bbm_ok_nil
  · rw [if_neg hb]
    by_cases hal : ¬ (Mm.is_align a.addr (c.level_size level) = true)
    · rw [if_pos hal]
      exact trace_bbm_ok_nil
    · rw [if_neg hal]
      rcases halloc : alloc_single_pt c hw with ⟨pa, hw1, ev⟩
      have htr := alloc_single_pt_trace c hw
      rw [halloc] at htr
      cases pa with
      | zero => exact htr
      | succ n =>
        dsimp only
        refine trace_bbm_ok_append
          (trace_bbm_ok_append (trace_bbm_ok_append htr ?_)
            (trace_bbm_ok_cons rfl trace_bbm_ok_nil)) ?_
        · apply populate_go_trace
          intro j _
          have hfr := alloc_single_pt_fresh c hw
            (by rw [halloc]; exact Nat.succ_ne_zero n) j
          rw [halloc] at hfr
          exact hfr
        · exact write_pte_and_sync_trace c .UPDATE a _ tablePa idx _ _ hm
            (fun h => nomatch h)

lemma map_walk_trace (c : Cfg) (a : AddrIn) :
    ∀ (n level tpa : Nat) (hw : HwState),
      trace_bbm_ok (map_walk c a n level tpa hw).2.2 := by
  intro n
  induction n with
  | zero =>
    intro level tpa hw
    exact trace_bbm_ok_nil
  | succ m ih =>
    intro level tpa hw
    simp only [map_walk]
    by_cases hv : entry_is_valid
        (memRead hw tpa (table_index_at_level c a level)) = true
    · rw [if_pos hv]
      by_cases ht : ¬ (entry_is_table c level
          (memRead hw tpa (table_index_at_level c a level)) = true)
      · rw [if_pos ht]
        exact trace_bbm_ok_nil
      · rw [if_neg ht]
        exact ih _ _ _
    · rw [if_neg hv]
      rcases hlink : alloc_and_link_table c tpa
          (table_index_at_level c a level) hw with ⟨e, child, hw1, ev⟩
      have htr := alloc_and_link_table_trace c tpa
        (table_index_at_level c a level) hw
      rw [hlink] at htr
      cases e with
      | ok =>
        dsimp only
        exact trace_bbm_ok_append htr (ih _ _ _)
      | invalid => exact htr
      | overflow => exact htr
      | nomem => exact htr

lemma map_one_trace (c : Cfg) (root : Nat) (a : AddrIn) (pa p leaf : Nat)
    (hw : HwState) (hm : c.mmuOn = true) :
    trace_bbm_ok (map_one c root a pa p leaf hw).2.2 := by
  unfold map_one
  rcases hwalk : map_walk c a leaf 0 root hw with ⟨res, hw1, ev⟩
  have htr := map_walk_trace c a leaf 0 root hw
  rw [hwalk] at htr
  cases res with
  | done e => exact htr
  | leaf tpa =>
    dsimp only
    by_cases hv : entry_is_valid
        (memRead hw1 tpa (table_index_at_level c a leaf)) = true
    · rw [if_pos hv]
      exact htr
    · rw [if_neg hv]
      exact trace_bbm_ok_append htr
        (write_pte_and_sync_trace c .INSTALL _ _ tpa _ _ hw1 hm
          (fun _ => fault_of_not_valid hv))

lemma map_range_go_trace (c : Cfg) (root : Nat) (hm : c.mmuOn = true) :
    ∀ (fuel : Nat) (a : AddrIn) (pa size p : Nat) (hw : HwState),
      trace_bbm_ok (map_range_go c root fuel a pa size p hw).2.2 := by
  intro fuel
  induction fuel with
  | zero =>
    intro a pa size p hw
    exact trace_bbm_ok_nil
  | succ m ih =>
    intro a pa size p hw
    simp only [map_range_go]
    by_cases hz : size = 0
    · rw [if_pos hz]
      exact trace_bbm_ok_nil
    · rw [if_neg hz]
      rcases hone : map_one c root a pa p
          (choose_leaf_level c a pa size) hw with ⟨e, hw1, ev⟩
      have htr := map_one_trace c root a pa p
        (choose_leaf_level c a pa size) hw hm
      rw [hone] at htr
      cases e with
      | ok =>
        dsimp only
        exact trace_bbm_ok_append htr (ih _ _ _ _ _)
      | invalid => exact htr
      | overflow => exact htr
      | nomem => exact htr

lemma map_range_trace (c : Cfg) (root : Nat) (a : AddrIn)
    (pa size p : Nat) (hw : HwState) (hm : c.mmuOn = true) :
    trace_bbm_ok (map_range c root a pa size p hw).2.2 := by
  unfold map_range
  split
  · exact trace_bbm_ok_nil
  split
  · exact trace_bbm_ok_nil
  split
  · exact trace_bbm_ok_nil
  exact map_range_go_trace c root hm _ a pa size p hw

lemma iter_entries_trace (f : HwState → Nat → HwState × List Event)
    (hf : ∀ hw i, trace_bbm_ok (f hw i).2) :
    ∀ (n i : Nat) (hw : HwState),
      trace_bbm_ok (iter_entries f n i hw).2 := by
  intro n
  induction n with
  | zero =>
    intro i hw
    exact trace_bbm_ok_nil
  | succ m ih =>
    intro i hw
    simp only [iter_entries]
    exact trace_bbm_ok_append (hf hw i) (ih (i + 1) _)

lemma free_subtree_trace (c : Cfg) :
    ∀ (fuel tablePa level : Nat) (hw : HwState),
      trace_bbm_ok (free_subtree c fuel tablePa level hw).2 := by
  intro fuel
  induction fuel with
  | zero =>
    intro tablePa level hw
    exact trace_bbm_ok_nil
  | succ m ih =>
    intro tablePa level hw
    simp only [free_subtree]
    apply iter_entries_trace
    intro hw' i
    dsimp only
    by_cases hv : entry_is_valid (memRead hw' tablePa i) = true
    · rw [if_pos hv]
      by_cases ht : entry_is_table c level (memRead hw' tablePa i) = true
      · rw [if_pos ht]
        exact trace_bbm_ok_append (ih _ _ _)
          (trace_bbm_ok_cons (store_bbm_ok_of_new_fault pte_is_fault_FAULT)
            trace_bbm_ok_nil)
      · rw [if_neg ht]
        exact trace_bbm_ok_append trace_bbm_ok_nil
          (trace_bbm_ok_cons (store_bbm_ok_of_new_fault pte_is_fault_FAULT)
            trace_bbm_ok_nil)
    · rw [if_neg hv]
      exact trace_bbm_ok_nil

lemma unmap_walk_trace (c : Cfg) (a : AddrIn) (hm : c.mmuOn = true) :
    ∀ (n level tpa : Nat) (hw : HwState),
      trace_bbm_ok (unmap_walk c a n level tpa hw).2.2 := by
  intro n
  induction n with
  | zero =>
    intro level tpa hw
    exact trace_bbm_ok_nil
  | succ m ih =>
    intro level tpa hw
    simp only [unmap_walk]
    by_cases hv : ¬ (entry_is_valid
        (memRead hw tpa (table_index_at_level c a level)) = true)
    · rw [if_pos hv]
      exact trace_bbm_ok_nil
    · rw [if_neg hv]
      rcases hsb : split_block c (addr_at_level c a level) tpa
          (table_index_at_level c a level) level hw with ⟨e, hw1, ev1⟩
      have htr := split_block_trace c (addr_at_level c a level) tpa
        (table_index_at_level c a level) level hw hm
      rw [hsb] at htr
      cases e with
      | ok =>
        dsimp only
        by_cases ht : ¬ (entry_is_table c level
            (memRead hw1 tpa (table_index_at_level c a level)) = true)
        · rw [if_pos ht]
          exact htr
        · rw [if_neg ht]
          exact trace_bbm_ok_append htr (ih _ _ _)
      | invalid => exact htr
      | overflow => exact htr
      | nomem => exact htr

lemma unmap_one_trace (c : Cfg) (root : Nat) (a : AddrIn) (leaf : Nat)
    (hw : HwState) (hm : c.mmuOn = true) :
    trace_bbm_ok (unmap_one c root a leaf hw).2.2 := by
  unfold unmap_one
  rcases hwalk : unmap_walk c a leaf 0 root hw with ⟨res, hw1, ev⟩
  have htr := unmap_walk_trace c a hm leaf 0 root hw
  rw [hwalk] at htr
  cases res with
  | done e => exact htr
  | leaf tpa =>
    dsimp only
    by_cases hv : ¬ (entry_is_valid
        (memRead hw1 tpa (table_index_at_level c a leaf)) = true)
    · rw [if_pos hv]
      exact htr
    · rw [if_neg hv]
      by_cases ht : entry_is_table c leaf
          (memRead hw1 tpa (table_index_at_level c a leaf)) = true
      · rw [if_pos ht]
        exact trace_bbm_ok_append (trace_bbm_ok_append htr
          (write_pte_and_sync_trace c .REMOVE _ _ tpa _ _ hw1 hm
            (fun h => nomatch h))) (free_subtree_trace c _ _ _ _)
      · rw [if_neg ht]
        exact trace_bbm_ok_append htr
          (write_pte_and_sync_trace c .REMOVE _ _ tpa _ _ hw1 hm
            (fun h => nomatch h))

lemma unmap_range_go_trace (c : Cfg) (root : Nat) (hm : c.mmuOn = true) :
    ∀ (fuel : Nat) (a : AddrIn) (size : Nat) (hw : HwState),
      trace_bbm_ok (unmap_range_go c root fuel a size hw).2.2 := by
  intro fuel
  induction fuel with
  | zero =>
    intro a size hw
    exact trace_bbm_ok_nil
  | succ m ih =>
    intro a size hw
    simp only [unmap_range_go]
    by_cases hz : size = 0
    · rw [if_pos hz]
      exact trace_bbm_ok_nil
    · rw [if_neg hz]
      rcases hone : unmap_one c root a (c.levels - 1) hw with ⟨e, hw1, ev⟩
      have htr := unmap_one_trace c root a (c.levels - 1) hw hm
      rw [hone] at htr
      cases e with
      | ok =>
        dsimp only
        exact trace_bbm_ok_append htr (ih _ _ _)
      | invalid => exact htr
      | overflow => exact htr
      | nomem => exact htr

lemma unmap_range_trace (c : Cfg) (root : Nat) (a : AddrIn) (size : Nat)
    (hw : HwState) (hm : c.mmuOn = true) :
    trace_bbm_ok (unmap_range c root a size hw).2.2 := by
  unfold unmap_range
  split
  · exact trace_bbm_ok_nil
  split
  · exact trace_bbm_ok_nil
  split
  · exact trace_bbm_ok_nil
  exact unmap_range_go_trace c root hm _ a size hw

lemma protect_subtree_trace (c : Cfg) (hm : c.mmuOn = true) :
    ∀ (fuel : Nat) (a : AddrIn) (tablePa level p : Nat) (hw : HwState),
      trace_bbm_ok (protect_subtree c fuel a tablePa level p hw).2 := by
  intro fuel
  induction fuel with
  | zero =>
    intro a tablePa level p hw
    exact trace_bbm_ok_nil
  | succ m ih =>
    intro a tablePa level p hw
    simp only [protect_subtree]
    apply iter_entries_trace
    intro hw' i
    dsimp only
    by_cases hv : entry_is_valid (memRead hw' tablePa i) = true
    · rw [if_pos hv]
      by_cases ht : entry_is_table c level (memRead hw' tablePa i) = true
      · rw [if_pos ht]
        exact ih _ _ _ _ _
      · rw [if_neg ht]
        exact write_pte_and_sync_trace c .UPDATE _ _ tablePa i _ hw' hm
          (fun h => nomatch h)
    · rw [if_neg hv]
      exact trace_bbm_ok_nil

lemma protect_walk_trace (c : Cfg) (a : AddrIn) (hm : c.mmuOn = true) :
    ∀ (n level tpa : Nat) (hw : HwState),
      trace_bbm_ok (protect_walk c a n level tpa hw).2.2 := by
  intro n
  induction n with
  | zero =>
    intro level tpa hw
    exact trace_bbm_ok_nil
  | succ m ih =>
    intro level tpa hw
    simp only [protect_walk]
    by_cases hv : ¬ (entry_is_valid
        (memRead hw tpa (table_index_at_level c a level)) = true)
    · rw [if_pos hv]
      exact trace_bbm_ok_nil
    · rw [if_neg hv]
      rcases hsb : split_block c (addr_at_level c a level) tpa
          (table_index_at_level c a level) level hw with ⟨e, hw1, ev1⟩
      have htr := split_block_trace c (addr_at_level c a level) tpa
        (table_index_at_level c a level) level hw hm
      rw [hsb] at htr
      cases e with
      | ok =>
        dsimp only
        by_cases ht : ¬ (entry_is_table c level
            (memRead hw1 tpa (table_index_at_level c a level)) = true)
        · rw [if_pos ht]
          exact htr
        · rw [if_neg ht]
          exact trace_bbm_ok_append htr (ih _ _ _)
      | invalid => exact htr
      | overflow => exact htr
      | nomem => exact htr

lemma protect_one_trace (c : Cfg) (root : Nat) (a : AddrIn)
    (p leaf : Nat) (hw : HwState) (hm : c.mmuOn = true) :
    trace_bbm_ok (protect_one c root a p leaf hw).2.2 := by
  unfold protect_one
  rcases hwalk : protect_walk c a leaf 0 root hw with ⟨res, hw1, ev⟩
  have htr := protect_walk_trace c a hm leaf 0 root hw
  rw [hwalk] at htr
  cases res with
  | done e => exact htr
  | leaf tpa =>
    dsimp only
    by_cases hv : ¬ (entry_is_valid
        (memRead hw1 tpa (table_index_at_level c a leaf)) = true)
    · rw [if_pos hv]
      exact htr
    · rw [if_neg hv]
      by_cases ht : entry_is_table c leaf
          (memRead hw1 tpa (table_index_at_level c a leaf)) = true
      · rw [if_pos ht]
        exact trace_bbm_ok_append htr
          (protect_subtree_trace c hm _ _ _ _ _ _)
      · rw [if_neg ht]
        exact trace_bbm_ok_append htr
          (write_pte_and_sync_trace c .UPDATE _ _ tpa _ _ hw1 hm
            (fun h => nomatch h))

lemma protect_range_go_trace (c : Cfg) (root : Nat) (hm : c.mmuOn = true) :
    ∀ (fuel : Nat) (a : AddrIn) (size p : Nat) (hw : HwState),
      trace_bbm_ok (protect_range_go c root fuel a size p hw).2.2 := by
  intro fuel
  induction fuel with
  | zero =>
    intro a size p hw
    exact trace_bbm_ok_nil
  | succ m ih =>
    intro a size p hw
    simp only [protect_range_go]
    by_cases hz : size = 0
    · rw [if_pos hz]
      exact trace_bbm_ok_nil
    · rw [if_neg hz]
      rcases hone : protect_one c root a p (c.levels - 1) hw
        with ⟨e, hw1, ev⟩
      have htr := protect_one_trace c root a p (c.levels - 1) hw hm
      rw [hone] at htr
      cases e with
      | ok =>
        dsimp only
        exact trace_bbm_ok_append htr (ih _ _ _ _)
      | invalid => exact htr
      | overflow => exact htr
      | nomem => exact htr

lemma protect_range_trace (c : Cfg) (root : Nat) (a : AddrIn)
    (size p : Nat) (hw : HwState) (hm : c.mmuOn = true) :
    trace_bbm_ok (protect_range c root a size p hw).2.2 := by
  unfold protect_range
  split
  · exact trace_bbm_ok_nil
  split
  · exact trace_bbm_ok_nil
  split
  · exact trace_bbm_ok_nil
  exact protect_range_go_trace c root hm _ a size p hw

lemma pt_init_trace (c : Cfg) (pt : PTObj) (hw : HwState) :
    trace_bbm_ok (pt_init c pt hw).2.2.2 := by
  unfold pt_init
  by_cases h : pt.hasAllocator = true ∨ pt.rootPa ≠ 0
  · rw [if_pos h]
    exact trace_bbm_ok_nil
  · rw [if_neg h]
    rcases halloc : alloc_single_pt c hw with ⟨pa, hw1, ev⟩
    have htr := alloc_single_pt_trace c hw
    rw [halloc] at htr
    cases pa with
    | zero => exact htr
    | succ n => exact htr

lemma pt_deinit_trace (c : Cfg) (pt : PTObj) (hw : HwState) :
    trace_bbm_ok (pt_deinit c pt hw).2.2 := by
  unfold pt_deinit
  split
  · exact free_subtree_trace c _ _ _ _
  · exact trace_bbm_ok_nil

lemma run_op_trace (c : Cfg) (hm : c.mmuOn = true) (op : PTOp)
    (s : PTObj × HwState) : trace_bbm_ok (run_op c op s).2 := by
  cases op with
  | opInit => exact pt_init_trace c s.1 s.2
  | opDeinit => exact pt_deinit_trace c s.1 s.2
  | opMap a pa size p => exact map_range_trace c s.1.rootPa a pa size p s.2 hm
  | opProtect a size p =>
    exact protect_range_trace c s.1.rootPa a size p s.2 hm
  | opUnmap a size => exact unmap_range_trace c s.1.rootPa a size s.2 hm

lemma run_ops_trace (c : Cfg) (hm : c.mmuOn = true) :
    ∀ (ops : List PTOp) (s : PTObj × HwState),
      trace_bbm_ok (run_ops c ops s).2 := by
  intro ops
  induction ops with
  | nil =>
    intro s
    exact trace_bbm_ok_nil
  | cons op rest ih =>
    intro s
    simp only [run_ops]
    exact trace_bbm_ok_append (run_op_trace c hm op s) (ih _)

end Paging

/-- **C2.** With the MMU on, every sequence of page-table operations
(map, protect, unmap, init, deinit — including the block splitting these
perform internally) produces an event trace in which no store overwrites
a valid descriptor directly with a different valid descriptor; moreover
every `write_pte_and_sync` of kind REMOVE or UPDATE emits exactly the
break-before-make sequence: store FAULT, `dsb(ishst)`, TLB invalidation
of the affected range, `dsb(ish)`, `isb`, then the final descriptor
store followed by the same fence-and-invalidate sequence. -/
theorem c2_break_before_make (c : Paging.Cfg) (hm : c.mmuOn = true)
    (ops : List Paging.PTOp) (s : Paging.PTObj × Paging.HwState)
    (k : Paging.wkind)
    (hk : k = Paging.wkind.REMOVE ∨ k = Paging.wkind.UPDATE)
    (a : Paging.AddrIn) (size tablePa idx value : Nat)
    (hw : Paging.HwState) :
    (∀ e ∈ (Paging.run_ops c ops s).2, Paging.store_bbm_ok e = true) ∧
    (Paging.write_pte_and_sync c k a size tablePa idx value hw).2 =
      [.store tablePa idx (Paging.memRead hw tablePa idx)
         Paging.PTE_TYPE_FAULT,
       .dsbIshst, .tlbi a.addr size (Paging.tlbi_asid c a), .dsbIsh, .isb,
       .store tablePa idx Paging.PTE_TYPE_FAULT value,
       .dsbIshst, .tlbi a.addr size (Paging.tlbi_asid c a), .dsbIsh, .isb] := by
  constructor
  · exact Paging.run_ops_trace c hm ops s
  · unfold Paging.write_pte_and_sync
    rw [if_neg (by simp [hm])]
    rw [if_pos (hk.elim (fun h => Or.inr h) (fun h => Or.inl h))]
    dsimp only
    rw [Paging.memRead_writeSlot_self]

/-- C2 witness: the theorem instantiated at a concrete stage-1
configuration, a concrete operation sequence and a concrete REMOVE
write, with both hypotheses discharged by evaluation. -/
theorem c2_break_before_make_witness :
    ((⟨Paging.stage.ST_1, 12, 39, 48, true⟩ : Paging.Cfg).mmuOn = true) ∧
    (Paging.wkind.REMOVE = Paging.wkind.REMOVE ∨
      Paging.wkind.REMOVE = Paging.wkind.UPDATE) ∧
    ((∀ e ∈ (Paging.run_ops ⟨Paging.stage.ST_1, 12, 39, 48, true⟩
        [Paging.PTOp.opInit,
         Paging.PTOp.opMap ⟨0x40000000, 1⟩ 0x80000000 0x3000
           Mm.Prot.KERNEL_RW,
         Paging.PTOp.opProtect ⟨0x40000000, 1⟩ 0x1000 Mm.Prot.KERNEL_RWX,
         Paging.PTOp.opUnmap ⟨0x40000000, 1⟩ 0x3000,
         Paging.PTOp.opDeinit]
        (⟨false, 0⟩, ⟨[], [0x1000, 0x2000, 0x3000, 0x4000, 0x5000]⟩)).2,
        Paging.store_bbm_ok e = true) ∧
      (Paging.write_pte_and_sync ⟨Paging.stage.ST_1, 12, 39, 48, true⟩
        Paging.wkind.REMOVE ⟨0x40000000, 1⟩ 0x1000 0x2000 5 0 ⟨[], []⟩).2 =
        [.store 0x2000 5
           (Paging.memRead (⟨[], []⟩ : Paging.HwState) 0x2000 5)
           Paging.PTE_TYPE_FAULT,
         .dsbIshst,
         .tlbi (⟨0x40000000, 1⟩ : Paging.AddrIn).addr 0x1000
           (Paging.tlbi_asid ⟨Paging.stage.ST_1, 12, 39, 48, true⟩
             ⟨0x40000000, 1⟩),
         .dsbIsh, .isb,
         .store 0x2000 5 Paging.PTE_TYPE_FAULT 0,
         .dsbIshst,
         .tlbi (⟨0x40000000, 1⟩ : Paging.AddrIn).addr 0x1000
           (Paging.tlbi_asid ⟨Paging.stage.ST_1, 12, 39, 48, true⟩
             ⟨0x40000000, 1⟩),
         .dsbIsh, .isb]) :=
  ⟨rfl, Or.inl rfl,
   c2_break_before_make ⟨Paging.stage.ST_1, 12, 39, 48, true⟩ rfl
     [Paging.PTOp.opInit,
      Paging.PTOp.opMap ⟨0x40000000, 1⟩ 0x80000000 0x3000 Mm.Prot.KERNEL_RW,
      Paging.PTOp.opProtect ⟨0x40000000, 1⟩ 0x1000 Mm.Prot.KERNEL_RWX,
      Paging.PTOp.opUnmap ⟨0x40000000, 1⟩ 0x3000,
      Paging.PTOp.opDeinit]
     (⟨false, 0⟩, ⟨[], [0x1000, 0x2000, 0x3000, 0x4000, 0x5000]⟩)
     Paging.wkind.REMOVE (Or.inl rfl) ⟨0x40000000, 1⟩ 0x1000 0x2000 5 0
     ⟨[], []⟩⟩


namespace Paging

/-! ## C1: what `map_range` does to descriptor slots that are already valid

The preservation lemmas below show that the map path never rewrites a
descriptor slot that already holds a valid entry, as long as the page
holding the slot is not on the injected allocator's free list (the engine
zero-fills every page the allocator hands it, so a free-listed table page
would be clobbered by design).
-/

lemma memRead_writeTable_other (hw : HwState) (pa : Nat) (t : List Nat)
    (tp j : Nat) (h : tp ≠ pa) :
    memRead (memWriteTable hw pa t) tp j = memRead hw tp j := by
  rw [memRead, memRead]
  have : memReadTable (memWriteTable hw pa t).mem tp =
      memReadTable hw.mem tp := by
    simp [memWriteTable, memReadTable, List.lookup, beq_eq_false_iff_ne.2 h]
  rw [this]

lemma alloc_single_pt_preserves (c : Cfg) (hw : HwState) (T i : Nat)
    (h1 : T ∉ hw.freePages) :
    T ∉ (alloc_single_pt c hw).2.1.freePages ∧
    memRead (alloc_single_pt c hw).2.1 T i = memRead hw T i := by
  cases hfp : hw.freePages with
  | nil =>
    constructor
    · simp [alloc_single_pt, hfp]
    · simp only [alloc_single_pt, hfp]
  | cons pa0 rest =>
    rw [hfp] at h1
    have hTrest : T ∉ rest := fun h => h1 (List.mem_cons_of_mem _ h)
    have hTpa : T ≠ pa0 := fun h => h1 (h ▸ List.mem_cons_self _ _)
    by_cases h0 : pa0 = 0
    · simp only [alloc_single_pt, hfp]
      rw [if_pos h0]
      exact ⟨hTrest, rfl⟩
    · simp only [alloc_single_pt, hfp]
      rw [if_neg h0]
      refine ⟨hTrest, ?_⟩
      exact memRead_writeTable_other _ _ _ _ _ hTpa

lemma write_pte_and_sync_preserves (c : Cfg) (k : wkind) (a : AddrIn)
    (size tablePa idx value : Nat) (hw : HwState) (T i : Nat)
    (h1 : T ∉ hw.freePages)
    (hg : pte_is_fault (memRead hw tablePa idx) = true)
    (hv : entry_is_valid (memRead hw T i) = true) :
    T ∉ (write_pte_and_sync c k a size tablePa idx value hw).1.freePages ∧
    memRead (write_pte_and_sync c k a size tablePa idx value hw).1 T i =
      memRead hw T i := by
  have hne : T ≠ tablePa ∨ i ≠ idx := by
    by_cases hT : T = tablePa
    · right
      intro hi
      rw [hT, hi] at hv
      unfold entry_is_valid at hv
      rw [hg] at hv
      exact absurd hv (by decide)
    · left
      exact hT
  unfold write_pte_and_sync
  split
  · exact ⟨h1, memRead_writeSlot_other hw tablePa idx value T i hne⟩
  split
  · exact ⟨h1, (memRead_writeSlot_other _ tablePa idx value T i hne).trans
      (memRead_writeSlot_other hw tablePa idx PTE_TYPE_FAULT T i hne)⟩
  · exact ⟨h1, memRead_writeSlot_other hw tablePa idx value T i hne⟩

lemma alloc_and_link_table_preserves (c : Cfg) (tablePa idx : Nat)
    (hw : HwState) (T i : Nat) (h1 : T ∉ hw.freePages)
    (hv : entry_is_valid (memRead hw T i) = true) :
    T ∉ (alloc_and_link_table c tablePa idx hw).2.2.1.freePages ∧
    memRead (alloc_and_link_table c tablePa idx hw).2.2.1 T i =
      memRead hw T i := by
  unfold alloc_and_link_table
  by_cases hf : pte_is_fault (memRead hw tablePa idx) = true
  · rw [if_neg (not_not_intro hf)]
    rcases halloc : alloc_single_pt c hw with ⟨pa, hw1, ev⟩
    have hpres := alloc_single_pt_preserves c hw T i h1
    rw [halloc] at hpres
    cases pa with
    | zero => exact hpres
    | succ n =>
      have h1' : T ∉ hw1.freePages := hpres.1
      have h2' : memRead hw1 T i = memRead hw T i := hpres.2
      have hne : T ≠ tablePa ∨ i ≠ idx := by
        by_cases hT : T = tablePa
        · right
          intro hi
          rw [hT, hi] at hv
          unfold entry_is_valid at hv
          rw [hf] at hv
          exact absurd hv (by decide)
        · left
          exact hT
      exact ⟨h1', (memRead_writeSlot_other hw1 tablePa idx
        (make_table c.paBits c.pageShift (n + 1)) T i hne).trans h2'⟩
  · rw [if_pos hf]
    exact ⟨h1, rfl⟩

lemma map_walk_preserves (c : Cfg) (a : AddrIn) (T i : Nat) :
    ∀ (n level tpa : Nat) (hw : HwState), T ∉ hw.freePages →
      entry_is_valid (memRead hw T i) = true →
      T ∉ (map_walk c a n level tpa hw).2.1.freePages ∧
      memRead (map_walk c a n level tpa hw).2.1 T i = memRead hw T i := by
  intro n
  induction n with
  | zero =>
    intro level tpa hw h1 _
    exact ⟨h1, rfl⟩
  | succ m ih =>
    intro level tpa hw h1 hv
    simp only [map_walk]
    by_cases hval : entry_is_valid
        (memRead hw tpa (table_index_at_level c a level)) = true
    · rw [if_pos hval]
      by_cases ht : ¬ (entry_is_table c level
          (memRead hw tpa (table_index_at_level c a level)) = true)
      · rw [if_pos ht]
        exact ⟨h1, rfl⟩
      · rw [if_neg ht]
        exact ih _ _ _ h1 hv
    · rw [if_neg hval]
      rcases hlink : alloc_and_link_table c tpa
          (table_index_at_level c a level) hw with ⟨e, child, hw1, ev⟩
      have hpres := alloc_and_link_table_preserves c tpa
        (table_index_at_level c a level) hw T i h1 hv
      rw [hlink] at hpres
      cases e with
      | ok =>
        have h1' : T ∉ hw1.freePages := hpres.1
        have h2' : memRead hw1 T i = memRead hw T i := hpres.2
        have hrec := ih (level + 1) child hw1 h1' (by rw [h2']; exact hv)
        exact ⟨hrec.1, hrec.2.trans h2'⟩
      | invalid => exact hpres
      | overflow => exact hpres
      | nomem => exact hpres

lemma map_one_preserves (c : Cfg) (root : Nat) (a : AddrIn)
    (pa p leaf : Nat) (hw : HwState) (T i : Nat)
    (h1 : T ∉ hw.freePages)
    (hv : entry_is_valid (memRead hw T i) = true) :
    T ∉ (map_one c root a pa p leaf hw).2.1.freePages ∧
    memRead (map_one c root a pa p leaf hw).2.1 T i = memRead hw T i := by
  unfold map_one
  rcases hwalk : map_walk c a leaf 0 root hw with ⟨res, hw1, ev⟩
  have hpres := map_walk_preserves c a T i leaf 0 root hw h1 hv
  rw [hwalk] at hpres
  cases res with
  | done e => exact hpres
  | leaf tpa =>
    have h1' : T ∉ hw1.freePages := hpres.1
    have h2' : memRead hw1 T i = memRead hw T i := hpres.2
    dsimp only
    by_cases hval : entry_is_valid
        (memRead hw1 tpa (table_index_at_level c a leaf)) = true
    · rw [if_pos hval]
      exact ⟨h1', h2'⟩
    · rw [if_neg hval]
      have hv1 : entry_is_valid (memRead hw1 T i) = true := by
        rw [h2']
        exact hv
      have hws := write_pte_and_sync_preserves c .INSTALL
        (addr_at_level c a leaf) (c.level_size leaf) tpa
        (table_index_at_level c a leaf) (entry_at_level c pa p leaf) hw1 T i
        h1' (fault_of_not_valid hval) hv1
      exact ⟨hws.1, hws.2.trans h2'⟩

lemma map_range_go_preserves (c : Cfg) (root T i : Nat) :
    ∀ (fuel : Nat) (a : AddrIn) (pa size p : Nat) (hw : HwState),
      T ∉ hw.freePages → entry_is_valid (memRead hw T i) = true →
      T ∉ (map_range_go c root fuel a pa size p hw).2.1.freePages ∧
      memRead (map_range_go c root fuel a pa size p hw).2.1 T i =
        memRead hw T i := by
  intro fuel
  induction fuel with
  | zero =>
    intro a pa size p hw h1 _
    exact ⟨h1, rfl⟩
  | succ m ih =>
    intro a pa size p hw h1 hv
    simp only [map_range_go]
    by_cases hz : size = 0
    · rw [if_pos hz]
      exact ⟨h1, rfl⟩
    · rw [if_neg hz]
      rcases hone : map_one c root a pa p
          (choose_leaf_level c a pa size) hw with ⟨e, hw1, ev⟩
      have hpres := map_one_preserves c root a pa p
        (choose_leaf_level c a pa size) hw T i h1 hv
      rw [hone] at hpres
      cases e with
      | ok =>
        have h1' : T ∉ hw1.freePages := hpres.1
        have h2' : memRead hw1 T i = memRead hw T i := hpres.2
        have hrec := ih
          ⟨add64 a.addr (c.level_size (choose_leaf_level c a pa size)),
            a.asid⟩
          (add64 pa (c.level_size (choose_leaf_level c a pa size)))
          (if size > c.level_size (choose_leaf_level c a pa size) then
            size - c.level_size (choose_leaf_level c a pa size) else 0)
          p hw1 h1' (by rw [h2']; exact hv)
        exact ⟨hrec.1, hrec.2.trans h2'⟩
      | invalid => exact hpres
      | overflow => exact hpres
      | nomem => exact hpres

lemma map_range_preserves (c : Cfg) (root : Nat) (a : AddrIn)
    (pa size p : Nat) (hw : HwState) (T i : Nat)
    (h1 : T ∉ hw.freePages)
    (hv : entry_is_valid (memRead hw T i) = true) :
    T ∉ (map_range c root a pa size p hw).2.1.freePages ∧
    memRead (map_range c root a pa size p hw).2.1 T i = memRead hw T i := by
  unfold map_range
  split
  · exact ⟨h1, rfl⟩
  split
  · exact ⟨h1, rfl⟩
  split
  · exact ⟨h1, rfl⟩
  exact map_range_go_preserves c root T i _ a pa size p hw h1 hv

/-- When the very first walk step of the first chunk reads a valid
descriptor that is not a table, `map_one` reports the overlap
immediately: `invalid`, no state change, no events. -/
lemma map_one_level0 (c : Cfg) (root : Nat) (a : AddrIn)
    (pa p leaf : Nat) (hw : HwState)
    (hv : entry_is_valid
      (memRead hw root (table_index_at_level c a 0)) = true)
    (ht : entry_is_table c 0
      (memRead hw root (table_index_at_level c a 0)) = false) :
    map_one c root a pa p leaf hw = (.invalid, hw, []) := by
  cases leaf with
  | zero =>
    unfold map_one
    simp only [map_walk]
    rw [if_pos hv]
  | succ n =>
    unfold map_one
    simp only [map_walk]
    rw [if_pos hv, if_pos (by simp [ht])]

end Paging

/-- **C1** (amended).  For every configuration, root, input range and
machine state: (1) `map_range` leaves every descriptor slot that already
holds a valid entry unchanged, provided the page containing the slot is
not on the allocator free list; (2) if the aligned, non-empty,
non-overflowing range is routed by the root table to a valid descriptor
that is not a table, `map_range` returns `invalid` with the machine
state untouched and an empty event trace.  (The original claim's
stronger promise — that *any* overlap with a valid non-table descriptor
at *any* level yields `invalid` — fails: an intermediate table
allocation can fail first, yielding `nomem`; see the counterexample.) -/
theorem c1_map_range_overlap (c : Paging.Cfg) (root : Nat)
    (a : Paging.AddrIn) (pa size p : Nat) (hw : Paging.HwState) (T i : Nat)
    (h1 : T ∉ hw.freePages)
    (hv : Paging.entry_is_valid (Paging.memRead hw T i) = true) :
    Paging.memRead (Paging.map_range c root a pa size p hw).2.1 T i =
      Paging.memRead hw T i ∧
    (size ≠ 0 →
     Mm.is_align a.addr c.granule = true →
     Mm.is_align pa c.granule = true →
     ¬ (add64 a.addr size < a.addr ∨ add64 pa size < pa) →
     Paging.entry_is_valid
       (Paging.memRead hw root (Paging.table_index_at_level c a 0)) = true →
     Paging.entry_is_table c 0
       (Paging.memRead hw root (Paging.table_index_at_level c a 0)) = false →
     Paging.map_range c root a pa size p hw = (.invalid, hw, [])) := by
  constructor
  · exact (Paging.map_range_preserves c root a pa size p hw T i h1 hv).2
  · intro hsz hala halp hov hrv hrt
    unfold Paging.map_range
    rw [if_neg hsz, if_neg (by simp [hala, halp]), if_neg hov]
    simp only [Paging.map_range_go]
    rw [if_neg hsz,
      Paging.map_one_level0 c root a pa p _ hw hrv hrt]

/-- C1 witness: a stage-1 state whose root table maps virtual address 0
with a 1 GiB block; mapping one page at 0 leaves the block descriptor
unchanged and returns `invalid` with no state change. -/
theorem c1_map_range_overlap_witness :
    ((0x1000 : Nat) ∉ (⟨[(0x1000,
        [Paging.make_leaf_block Paging.stage.ST_1 48 12 0
          Mm.Prot.KERNEL_RW false])], []⟩ : Paging.HwState).freePages) ∧
    (Paging.entry_is_valid (Paging.memRead
      ⟨[(0x1000, [Paging.make_leaf_block Paging.stage.ST_1 48 12 0
          Mm.Prot.KERNEL_RW false])], []⟩ 0x1000 0) = true) ∧
    (Paging.memRead (Paging.map_range ⟨Paging.stage.ST_1, 12, 39, 48, true⟩
        0x1000 ⟨0, 1⟩ 0x80000000 0x1000 Mm.Prot.KERNEL_RW
        ⟨[(0x1000, [Paging.make_leaf_block Paging.stage.ST_1 48 12 0
            Mm.Prot.KERNEL_RW false])], []⟩).2.1 0x1000 0 =
      Paging.memRead ⟨[(0x1000,
        [Paging.make_leaf_block Paging.stage.ST_1 48 12 0
          Mm.Prot.KERNEL_RW false])], []⟩ 0x1000 0 ∧
    ((0x1000 : Nat) ≠ 0 →
     Mm.is_align (⟨0, 1⟩ : Paging.AddrIn).addr
       (⟨Paging.stage.ST_1, 12, 39, 48, true⟩ : Paging.Cfg).granule = true →
     Mm.is_align 0x80000000
       (⟨Paging.stage.ST_1, 12, 39, 48, true⟩ : Paging.Cfg).granule = true →
     ¬ (add64 (⟨0, 1⟩ : Paging.AddrIn).addr 0x1000 <
          (⟨0, 1⟩ : Paging.AddrIn).addr ∨
        add64 0x80000000 0x1000 < 0x80000000) →
     Paging.entry_is_valid (Paging.memRead
       ⟨[(0x1000, [Paging.make_leaf_block Paging.stage.ST_1 48 12 0
           Mm.Prot.KERNEL_RW false])], []⟩ 0x1000
       (Paging.table_index_at_level ⟨Paging.stage.ST_1, 12, 39, 48, true⟩
         ⟨0, 1⟩ 0)) = true →
     Paging.entry_is_table ⟨Paging.stage.ST_1, 12, 39, 48, true⟩ 0
       (Paging.memRead ⟨[(0x1000,
           [Paging.make_leaf_block Paging.stage.ST_1 48 12 0
             Mm.Prot.KERNEL_RW false])], []⟩ 0x1000
         (Paging.table_index_at_level ⟨Paging.stage.ST_1, 12, 39, 48, true⟩
           ⟨0, 1⟩ 0)) = false →
     Paging.map_range ⟨Paging.stage.ST_1, 12, 39, 48, true⟩ 0x1000 ⟨0, 1⟩
         0x80000000 0x1000 Mm.Prot.KERNEL_RW
         ⟨[(0x1000, [Paging.make_leaf_block Paging.stage.ST_1 48 12 0
             Mm.Prot.KERNEL_RW false])], []⟩ =
       (.invalid,
        ⟨[(0x1000, [Paging.make_leaf_block Paging.stage.ST_1 48 12 0
            Mm.Prot.KERNEL_RW false])], []⟩, []))) :=
  ⟨by decide, by decide,
   c1_map_range_overlap ⟨Paging.stage.ST_1, 12, 39, 48, true⟩ 0x1000 ⟨0, 1⟩
     0x80000000 0x1000 Mm.Prot.KERNEL_RW
     ⟨[(0x1000, [Paging.make_leaf_block Paging.stage.ST_1 48 12 0
         Mm.Prot.KERNEL_RW false])], []⟩ 0x1000 0 (by decide) (by decide)⟩

/-- C1 counterexample to the claim as stated: the two-page range
`[0x3FFFF000, 0x40001000)` overlaps a valid level-2 page descriptor
covering `0x40000000` (slot 0 of the table at `0x3000`, reached through
the root at `0x1000` and the level-1 table at `0x2000`), yet `map_range`
returns `nomem`, not `invalid`: the first chunk's walk hits an unmapped
root slot and the intermediate-table allocation fails before the overlap
is ever examined. -/
theorem c1_map_range_overlap_nomem :
    (Paging.entry_is_valid (Paging.memRead
      ⟨[(0x1000, [0, Paging.make_table 48 12 0x2000]),
        (0x2000, [Paging.make_table 48 12 0x3000]),
        (0x3000, [Paging.make_leaf_page Paging.stage.ST_1 48 12 0x90000000
          Mm.Prot.KERNEL_RW false])], []⟩ 0x3000 0) = true) ∧
    (Paging.entry_is_table ⟨Paging.stage.ST_1, 12, 39, 48, true⟩ 2
      (Paging.memRead
        ⟨[(0x1000, [0, Paging.make_table 48 12 0x2000]),
          (0x2000, [Paging.make_table 48 12 0x3000]),
          (0x3000, [Paging.make_leaf_page Paging.stage.ST_1 48 12 0x90000000
            Mm.Prot.KERNEL_RW false])], []⟩ 0x3000 0) = false) ∧
    (Paging.table_index_at_level ⟨Paging.stage.ST_1, 12, 39, 48, true⟩
        ⟨0x40000000, 1⟩ 0 = 1 ∧
     Paging.entry_is_table ⟨Paging.stage.ST_1, 12, 39, 48, true⟩ 0
       (Paging.memRead
         ⟨[(0x1000, [0, Paging.make_table 48 12 0x2000]),
           (0x2000, [Paging.make_table 48 12 0x3000]),
           (0x3000, [Paging.make_leaf_page Paging.stage.ST_1 48 12
             0x90000000 Mm.Prot.KERNEL_RW false])], []⟩ 0x1000 1) = true ∧
     Paging.pte_to_phys 48 12 (Paging.memRead
       ⟨[(0x1000, [0, Paging.make_table 48 12 0x2000]),
         (0x2000, [Paging.make_table 48 12 0x3000]),
         (0x3000, [Paging.make_leaf_page Paging.stage.ST_1 48 12 0x90000000
           Mm.Prot.KERNEL_RW false])], []⟩ 0x1000 1) = 0x2000 ∧
     Paging.table_index_at_level ⟨Paging.stage.ST_1, 12, 39, 48, true⟩
       ⟨0x40000000, 1⟩ 1 = 0 ∧
     Paging.entry_is_table ⟨Paging.stage.ST_1, 12, 39, 48, true⟩ 1
       (Paging.memRead
         ⟨[(0x1000, [0, Paging.make_table 48 12 0x2000]),
           (0x2000, [Paging.make_table 48 12 0x3000]),
           (0x3000, [Paging.make_leaf_page Paging.stage.ST_1 48 12
             0x90000000 Mm.Prot.KERNEL_RW false])], []⟩ 0x2000 0) = true ∧
     Paging.pte_to_phys 48 12 (Paging.memRead
       ⟨[(0x1000, [0, Paging.make_table 48 12 0x2000]),
         (0x2000, [Paging.make_table 48 12 0x3000]),
         (0x3000, [Paging.make_leaf_page Paging.stage.ST_1 48 12 0x90000000
           Mm.Prot.KERNEL_RW false])], []⟩ 0x2000 0) = 0x3000 ∧
     Paging.table_index_at_level ⟨Paging.stage.ST_1, 12, 39, 48, true⟩
       ⟨0x40000000, 1⟩ 2 = 0) ∧
    ((0x3FFFF000 : Nat) ≤ 0x40000000 ∧
      (0x40000000 : Nat) < 0x3FFFF000 + 0x2000) ∧
    ((Paging.map_range ⟨Paging.stage.ST_1, 12, 39, 48, true⟩ 0x1000
        ⟨0x3FFFF000, 1⟩ 0x80000000 0x2000 Mm.Prot.KERNEL_RW
        ⟨[(0x1000, [0, Paging.make_table 48 12 0x2000]),
          (0x2000, [Paging.make_table 48 12 0x3000]),
          (0x3000, [Paging.make_leaf_page Paging.stage.ST_1 48 12 0x90000000
            Mm.Prot.KERNEL_RW false])], []⟩).1 = error_nr.nomem ∧
     error_nr.nomem ≠ error_nr.invalid) := by
  refine ⟨by decide, by decide, by decide, by decide, by decide, by decide⟩

end Xino
